import Mathlib

/-! LaserTag client: the network synchronisation core.

A shallow embedding of `src/client/client.cpp` (class `LaserTagClient`).

Modelling conventions:

* `uint32` fields are natural numbers; the only arithmetic on them is the
  outbound counter `seq_num_++`, reduced modulo `2^32`. `int32` fields are
  integers (they are only copied and compared).
* `float64` coordinates are taken as exact rationals.
* Time is an absolute number of milliseconds; every function that reads the
  clock (`expires_from_now`) receives the current instant `now`.
* The asynchronous operations handed to the socket and to the timers are
  recorded in the state; a completion handler is a function on the state.
* `MyPlayer()` dereferences the result of `players_.find` without a check, so
  every function going through it returns an `Option`: `none` stands for the
  dereference of the end iterator.
* `mutex_.lock()` / `mutex_.unlock()` bracket `UpdateState` and have no effect
  on the sequential behaviour modelled here.
-/

set_option linter.unusedVariables false

namespace LaserTag

/-! ## Wire types (`Protocol`) -/

/-- Per-player wire record `TransmittedData`. -/
structure TransmittedData where
  player_num : Int
  x_pos : ℚ
  y_pos : ℚ
  orientation : ℚ
  laser_active : Bool
deriving DecidableEq, Repr

/-- Header of an inbound snapshot, `ServerDataHeader`. -/
structure ServerDataHeader where
  server_seq_num : Nat
  red_score : Int
  blue_score : Int
  client_player_num : Int
  num_players : Nat
deriving DecidableEq, Repr

/-- Header of an outbound packet, `ClientDataHeader`. -/
structure ClientDataHeader where
  request : Bool
  seq_num : Nat
deriving DecidableEq, Repr

/-- A value-initialised `TransmittedData`, as produced by
`std::vector<TransmittedData>(32)` and by `resize` when it grows the vector. -/
def TransmittedData.zero : TransmittedData :=
  { player_num := 0, x_pos := 0, y_pos := 0, orientation := 0, laser_active := false }

/-- A datagram handed to `socket_.async_send_to`: either a header alone (join
request) or a header followed by one player record (periodic update). -/
inductive Packet where
  | header (h : ClientDataHeader)
  | headerAndData (h : ClientDataHeader) (d : TransmittedData)
deriving DecidableEq, Repr

/-! ## Geometry (`Geometry`) -/

/-- Modelled from the spec: `Vector2D` of the geometry library (geometry.hpp is
not among the sources), a pair of coordinates. -/
structure Vector2D where
  x : ℚ
  y : ℚ
deriving DecidableEq, Repr

/-- Modelled from the spec: vector subtraction of the geometry library
(geometry.hpp is not among the sources). -/
def Vector2D.sub (a b : Vector2D) : Vector2D := { x := a.x - b.x, y := a.y - b.y }

/-- Modelled from the spec: the test `Norm(v) > r` for the Euclidean norm of the
geometry library (geometry.hpp is not among the sources). The square root is
avoided so that the test stays executable on rationals: the norm exceeds `r`
exactly when `r` is negative or `r * r < x * x + y * y`
(see `NormExceeds_iff_sqrt`). -/
def NormExceeds (v : Vector2D) (r : ℚ) : Bool :=
  decide (r < 0 ∨ r * r < v.x * v.x + v.y * v.y)

/-! ## Player (`Player`) -/

/-- Modelled from the spec: the `Player` class (player.hpp is not among the
sources): identifier, position, orientation and laser-active flag. -/
structure Player where
  player_num : Int
  position : Vector2D
  orientation : ℚ
  laser_active : Bool
deriving DecidableEq, Repr

/-- Modelled from the spec: the constructor `Player(data)` (player.hpp is not
among the sources), a player created from the record that first mentions it. -/
def Player.ofData (d : TransmittedData) : Player :=
  { player_num := d.player_num, position := { x := d.x_pos, y := d.y_pos },
    orientation := d.orientation, laser_active := d.laser_active }

/-- Modelled from the spec: `Player::Update(data)` (player.hpp is not among the
sources), which takes position, orientation and laser flag from the record and
keeps the identifier. -/
def Player.Update (p : Player) (d : TransmittedData) : Player :=
  { p with position := { x := d.x_pos, y := d.y_pos },
           orientation := d.orientation, laser_active := d.laser_active }

/-- Modelled from the spec: `Player::Position()` (player.hpp is not among the
sources). -/
def Player.Position (p : Player) : Vector2D := p.position

/-- Modelled from the spec: `Player::SetLaser(b)` (player.hpp is not among the
sources). -/
def Player.SetLaser (p : Player) (b : Bool) : Player := { p with laser_active := b }

/-- Modelled from the spec: `Player::Data()` (player.hpp is not among the
sources), the player's current record for transmission. -/
def Player.Data (p : Player) : TransmittedData :=
  { player_num := p.player_num, x_pos := p.position.x, y_pos := p.position.y,
    orientation := p.orientation, laser_active := p.laser_active }

/-- The four movement mutators of `Player` (player.hpp is not among the
sources). They depend on a step length and on trigonometry that the sources
at hand do not fix, so they are parameters of the embedding. -/
structure PlayerMoves where
  MoveForward : Player → Player
  MoveBackward : Player → Player
  RotateLeft : Player → Player
  RotateRight : Player → Player

/-! ## Containers -/

/-- The registry `std::map<int, Player>`: entries in ascending key order. -/
abbrev PlayerMap := List (Int × Player)

/-- Lookup `std::map::find`: the entry stored under `k`, if any. -/
def PlayerMap.find : PlayerMap → Int → Option Player
  | [], _ => none
  | e :: rest, k => if e.1 = k then some e.2 else PlayerMap.find rest k

/-- Insertion `std::map::insert`: places the entry in key order and leaves the
map alone when the key is already present. -/
def PlayerMap.insert (k : Int) (p : Player) : PlayerMap → PlayerMap
  | [] => [(k, p)]
  | e :: rest =>
    if k < e.1 then (k, p) :: e :: rest
    else if e.1 = k then e :: rest
    else e :: PlayerMap.insert k p rest

/-- In-place mutation through the iterator returned by `find`: the entry stored
under `k` is replaced by `f` of itself. -/
def PlayerMap.modify (f : Player → Player) (k : Int) : PlayerMap → PlayerMap
  | [] => []
  | e :: rest => if e.1 = k then (e.1, f e.2) :: rest else e :: PlayerMap.modify f k rest

/-- Keys of the registry, in iteration order. -/
def PlayerMap.keys (m : PlayerMap) : List Int := m.map Prod.fst

/-- The set `std::set<int>`: elements in ascending order without repetition. -/
abbrev IntSet := List Int

/-- Insertion `std::set::insert`. -/
def IntSet.insert (k : Int) : IntSet → IntSet
  | [] => [k]
  | e :: rest =>
    if k < e then k :: e :: rest
    else if e = k then e :: rest
    else e :: IntSet.insert k rest

/-- Resizing `std::vector::resize(n)`: keeps the first `n` elements and pads
with value-initialised records when the vector is shorter than `n`. -/
def resize (v : List TransmittedData) (n : Nat) : List TransmittedData :=
  v.take n ++ List.replicate (n - v.length) TransmittedData.zero

/-! ## Timers (`boost::asio::deadline_timer`) -/

/-- A deadline timer: its expiry instant (once set), the number of handlers
waiting for it, and the number of handlers whose wait was cancelled and that are
still to be invoked with `operation_aborted`. -/
structure DeadlineTimer where
  expires_at : Option Nat
  waiting : Nat
  aborted : Nat
deriving DecidableEq, Repr

/-- A timer as constructed: no expiry set, nothing waiting. -/
def DeadlineTimer.fresh : DeadlineTimer := { expires_at := none, waiting := 0, aborted := 0 }

/-- Cancelling `cancel()`: every waiting handler is aborted. -/
def DeadlineTimer.cancel (t : DeadlineTimer) : DeadlineTimer :=
  { t with waiting := 0, aborted := t.aborted + t.waiting }

/-- Setting the expiry `expires_from_now(d)` at instant `now`: the expiry
becomes `now + d` and every waiting handler is aborted. -/
def DeadlineTimer.expires_from_now (t : DeadlineTimer) (now d : Nat) : DeadlineTimer :=
  { expires_at := some (now + d), waiting := 0, aborted := t.aborted + t.waiting }

/-- Waiting `async_wait(handler)`: one more handler waits for the expiry. -/
def DeadlineTimer.async_wait (t : DeadlineTimer) : DeadlineTimer :=
  { t with waiting := t.waiting + 1 }

/-! ## The client -/

/-- Input symbols of `UpdateState`; `Other` stands for every enumerator that
the switch does not name. -/
inductive Input where
  | Up
  | Down
  | Left
  | Right
  | Space
  | Other (code : Nat)
deriving DecidableEq, Repr

/-- State of a `LaserTagClient`. `receives` lists the receive operations
outstanding on `socket_` (each tagged with the `initial` flag that selected its
handler) and `sends` lists the datagrams handed to `socket_.async_send_to`
whose completion handler has not run yet, oldest first. -/
structure LaserTagClient where
  players_ : PlayerMap
  red_score_ : Int
  blue_score_ : Int
  my_player_num_ : Int
  last_server_seq_num_ : Nat
  seq_num_ : Nat
  laser_available_ : Bool
  timeout_timer_ : DeadlineTimer
  send_timer_ : DeadlineTimer
  laser_timer_ : DeadlineTimer
  laser_available_timer_ : DeadlineTimer
  receives : List Bool
  sends : List Packet
deriving DecidableEq, Repr

/-- Accessor `Players()`. -/
def Players (s : LaserTagClient) : PlayerMap := s.players_

/-- Accessor `GetScore()`. -/
def GetScore (s : LaserTagClient) : Int × Int := (s.red_score_, s.blue_score_)

/-- Accessor `GetPlayerNum()`. -/
def GetPlayerNum (s : LaserTagClient) : Int := s.my_player_num_

/-- Lookup `MyPlayer()`: `players_.find(my_player_num_)->second`. -/
def MyPlayer (s : LaserTagClient) : Option Player :=
  PlayerMap.find s.players_ s.my_player_num_

/-- A mutation through the reference returned by `MyPlayer()`, such as
`MyPlayer().SetLaser(true)`; undefined when the local player has no entry. -/
def MyPlayerApply (f : Player → Player) (s : LaserTagClient) : Option LaserTagClient :=
  match MyPlayer s with
  | none => none
  | some _ => some { s with players_ := PlayerMap.modify f s.my_player_num_ s.players_ }

/-- Join request `RequestEnterGame()`: a value-initialised header with the
request flag set is sent alone. -/
def RequestEnterGame (s : LaserTagClient) : LaserTagClient :=
  { s with sends := s.sends ++ [Packet.header { request := true, seq_num := 0 }] }

/-- Receive `ReceiveGameData(initial)`: one more receive operation is issued,
bound to the initial or to the steady-state handler. -/
def ReceiveGameData (initial : Bool) (s : LaserTagClient) : LaserTagClient :=
  { s with receives := s.receives ++ [initial] }

/-- Completion of the join-request send, `OnRequestEnterGame`. -/
def OnRequestEnterGame (now : Nat) (error : Bool) (bytes_transferred : Nat)
    (s : LaserTagClient) : LaserTagClient :=
  let s1 := ReceiveGameData true s
  { s1 with timeout_timer_ := (s1.timeout_timer_.expires_from_now now 1000).async_wait }

/-- Handshake timeout `OnEnterGameTimeout`. -/
def OnEnterGameTimeout (error : Bool) (s : LaserTagClient) : LaserTagClient :=
  if error then s else RequestEnterGame s

/-- Reconciliation of one record, `InsertOrUpdatePlayer`. -/
def InsertOrUpdatePlayer (player_num : Int) (data : TransmittedData)
    (s : LaserTagClient) : LaserTagClient :=
  match PlayerMap.find s.players_ player_num with
  | none => { s with players_ := PlayerMap.insert player_num (Player.ofData data) s.players_ }
  | some cur =>
    if player_num = s.my_player_num_ then
      let new_pos : Vector2D := { x := data.x_pos, y := data.y_pos }
      let cur_pos := cur.Position
      if NormExceeds (new_pos.sub cur_pos) 25 then
        { s with players_ := PlayerMap.modify (fun p => p.Update data) player_num s.players_ }
      else s
    else
      { s with players_ := PlayerMap.modify (fun p => p.Update data) player_num s.players_ }

/-- The loop of `OnReceiveGameData` over the records: each record is reconciled
into the registry and its identifier is added to `active_players`. -/
def FetchData : List TransmittedData → LaserTagClient × IntSet → LaserTagClient × IntSet
  | [], acc => acc
  | player_data :: rest, (s, active_players) =>
    FetchData rest (InsertOrUpdatePlayer player_data.player_num player_data s,
                    IntSet.insert player_data.player_num active_players)

/-- The loop of `OnReceiveGameData` over the registry: every entry whose key is
not in `active_players` is erased. -/
def RemoveInactive (active_players : IntSet) : PlayerMap → PlayerMap
  | [] => []
  | e :: rest =>
    if e.1 ∈ active_players then e :: RemoveInactive active_players rest
    else RemoveInactive active_players rest

/-- Steady-state receive completion `OnReceiveGameData`. -/
def OnReceiveGameData (error : Bool) (bytes_transmitted : Nat)
    (transmitted_data_header : ServerDataHeader) (transmitted_data : List TransmittedData)
    (s : LaserTagClient) : LaserTagClient :=
  let s3 :=
    if transmitted_data_header.server_seq_num > s.last_server_seq_num_ then
      let s1 := { s with last_server_seq_num_ := transmitted_data_header.server_seq_num,
                         red_score_ := transmitted_data_header.red_score,
                         blue_score_ := transmitted_data_header.blue_score }
      let fetched := FetchData (resize transmitted_data transmitted_data_header.num_players) (s1, [])
      { fetched.1 with players_ := RemoveInactive fetched.2 fetched.1.players_ }
    else s
  ReceiveGameData false s3

/-- Initial receive completion `OnReceiveInitialGameData`. -/
def OnReceiveInitialGameData (now : Nat) (error : Bool) (bytes_transmitted : Nat)
    (transmitted_data_header : ServerDataHeader) (transmitted_data : List TransmittedData)
    (s : LaserTagClient) : LaserTagClient :=
  let s1 := { s with timeout_timer_ := s.timeout_timer_.cancel }
  let s2 := { s1 with last_server_seq_num_ := transmitted_data_header.server_seq_num }
  let s3 := { s2 with my_player_num_ := transmitted_data_header.client_player_num }
  let s4 := OnReceiveGameData error bytes_transmitted transmitted_data_header transmitted_data s3
  { s4 with send_timer_ := (s4.send_timer_.expires_from_now now 50).async_wait }

/-- Periodic send `SendPlayerData`. -/
def SendPlayerData (error : Bool) (s : LaserTagClient) : Option LaserTagClient :=
  let header : ClientDataHeader := { request := false, seq_num := s.seq_num_ }
  let s1 := { s with seq_num_ := (s.seq_num_ + 1) % 2 ^ 32 }
  match MyPlayer s1 with
  | none => none
  | some me => some { s1 with sends := s1.sends ++ [Packet.headerAndData header me.Data] }

/-- Completion of the periodic send, `OnSendPlayerData`. -/
def OnSendPlayerData (now : Nat) (error : Bool) (bytes_transmitted : Nat)
    (s : LaserTagClient) : LaserTagClient :=
  { s with send_timer_ := (s.send_timer_.expires_from_now now 50).async_wait }

/-- Handler of the 250 ms laser timer, the first lambda of `Laser`. -/
def OnLaserTimer (error : Bool) (s : LaserTagClient) : Option LaserTagClient :=
  MyPlayerApply (fun p => p.SetLaser false) s

/-- Handler of the 1000 ms availability timer, the second lambda of `Laser`. -/
def OnLaserAvailableTimer (error : Bool) (s : LaserTagClient) : LaserTagClient :=
  { s with laser_available_ := true }

/-- Fire request `Laser()` at instant `now`. -/
def Laser (now : Nat) (s : LaserTagClient) : Option LaserTagClient :=
  if s.laser_available_ = false then some s
  else
    match MyPlayerApply (fun p => p.SetLaser true) s with
    | none => none
    | some s1 =>
      let s2 := { s1 with laser_available_ := false }
      let s3 := { s2 with laser_timer_ := (s2.laser_timer_.expires_from_now now 250).async_wait }
      some { s3 with laser_available_timer_ :=
                       (s3.laser_available_timer_.expires_from_now now 1000).async_wait }

/-- Input dispatch `UpdateState(input)` at instant `now`. -/
def UpdateState (mv : PlayerMoves) (now : Nat) (input : Input)
    (s : LaserTagClient) : Option LaserTagClient :=
  match input with
  | Input.Up => MyPlayerApply mv.MoveForward s
  | Input.Down => MyPlayerApply mv.MoveBackward s
  | Input.Left => MyPlayerApply mv.RotateLeft s
  | Input.Right => MyPlayerApply mv.RotateRight s
  | Input.Space => Laser now s
  | Input.Other _ => some s

/-- The constructor: empty registry, outbound counter zero, laser available,
fresh timers, and the join request sent. The members that the initialiser list
does not mention (`red_score_`, `blue_score_`, `my_player_num_`,
`last_server_seq_num_`) are parameters. -/
def LaserTagClient.construct (red_score blue_score my_player_num : Int)
    (last_server_seq_num : Nat) : LaserTagClient :=
  RequestEnterGame
    { players_ := [], red_score_ := red_score, blue_score_ := blue_score,
      my_player_num_ := my_player_num, last_server_seq_num_ := last_server_seq_num,
      seq_num_ := 0, laser_available_ := true,
      timeout_timer_ := DeadlineTimer.fresh, send_timer_ := DeadlineTimer.fresh,
      laser_timer_ := DeadlineTimer.fresh, laser_available_timer_ := DeadlineTimer.fresh,
      receives := [], sends := [] }

/-! ## The event loop (`boost::asio::io_service`) -/

/-- Delivery of one handler of a timer at instant `now`. Without error the
timer must have a handler waiting and must have reached its expiry; with the
error `operation_aborted` one of the cancelled handlers is delivered. `none`
when no such handler is due. -/
def DeadlineTimer.deliver (t : DeadlineTimer) (now : Nat) (error : Bool) :
    Option DeadlineTimer :=
  if error then
    if 0 < t.aborted then some { t with aborted := t.aborted - 1 } else none
  else
    match t.expires_at with
    | none => none
    | some e =>
      if 0 < t.waiting ∧ e ≤ now then some { t with waiting := t.waiting - 1 } else none

/-- The completions that the event loop hands to the client, each with the
instant at which its handler runs. -/
inductive Event where
  | SendCompleted (now : Nat) (error : Bool) (bytes_transferred : Nat)
  | ReceiveCompleted (now : Nat) (error : Bool) (bytes_transmitted : Nat)
      (header : ServerDataHeader) (data : List TransmittedData)
  | TimeoutTimer (now : Nat) (error : Bool)
  | SendTimer (now : Nat) (error : Bool)
  | LaserTimer (now : Nat) (error : Bool)
  | LaserAvailableTimer (now : Nat) (error : Bool)
  | InputSymbol (now : Nat) (input : Input)
deriving DecidableEq, Repr

/-- The instant of an event. -/
def Event.now : Event → Nat
  | Event.SendCompleted now _ _ => now
  | Event.ReceiveCompleted now _ _ _ _ => now
  | Event.TimeoutTimer now _ => now
  | Event.SendTimer now _ => now
  | Event.LaserTimer now _ => now
  | Event.LaserAvailableTimer now _ => now
  | Event.InputSymbol now _ => now

/-- One step of the event loop. The oldest send (resp. receive) operation on
the socket completes and leaves the queue, and the handler bound to it runs:
`OnRequestEnterGame` for a join request, `OnSendPlayerData` for an update,
`OnReceiveInitialGameData` or `OnReceiveGameData` according to the `initial`
flag of the receive; the receive buffer has 32 slots. A timer event runs the
handler waiting on that timer. An input symbol runs `UpdateState`. `none` when
the event is not due or when the handler dereferences a missing entry. -/
def step (mv : PlayerMoves) : Event → LaserTagClient → Option LaserTagClient
  | Event.SendCompleted now error bytes, s =>
    match s.sends with
    | [] => none
    | Packet.header _ :: rest =>
      some (OnRequestEnterGame now error bytes { s with sends := rest })
    | Packet.headerAndData _ _ :: rest =>
      some (OnSendPlayerData now error bytes { s with sends := rest })
  | Event.ReceiveCompleted now error bytes header data, s =>
    if data.length = 32 then
      match s.receives with
      | [] => none
      | true :: rest =>
        some (OnReceiveInitialGameData now error bytes header data { s with receives := rest })
      | false :: rest =>
        some (OnReceiveGameData error bytes header data { s with receives := rest })
    else none
  | Event.TimeoutTimer now error, s =>
    match s.timeout_timer_.deliver now error with
    | none => none
    | some t => some (OnEnterGameTimeout error { s with timeout_timer_ := t })
  | Event.SendTimer now error, s =>
    match s.send_timer_.deliver now error with
    | none => none
    | some t => SendPlayerData error { s with send_timer_ := t }
  | Event.LaserTimer now error, s =>
    match s.laser_timer_.deliver now error with
    | none => none
    | some t => OnLaserTimer error { s with laser_timer_ := t }
  | Event.LaserAvailableTimer now error, s =>
    match s.laser_available_timer_.deliver now error with
    | none => none
    | some t => some (OnLaserAvailableTimer error { s with laser_available_timer_ := t })
  | Event.InputSymbol now input, s => UpdateState mv now input s

/-- A run of the event loop from instant `clock`: the events are handled in
order and their instants do not go backwards. -/
def run (mv : PlayerMoves) : Nat → List Event → LaserTagClient → Option LaserTagClient
  | _, [], s => some s
  | clock, e :: rest, s =>
    if clock ≤ e.now then
      match step mv e s with
      | none => none
      | some s1 => run mv e.now rest s1
    else none

/-- Number of invocations of `SendPlayerData` in a list of events. -/
def countSendPlayerData : List Event → Nat
  | [] => 0
  | Event.SendTimer _ _ :: rest => countSendPlayerData rest + 1
  | _ :: rest => countSendPlayerData rest

/-- Whether a datagram is a join request (a header alone). -/
def Packet.isRequest : Packet → Bool
  | Packet.header _ => true
  | Packet.headerAndData _ _ => false

/-- Number of join requests among the datagrams whose send has not completed. -/
def requestsInFlight : List Packet → Nat
  | [] => 0
  | Packet.header _ :: rest => requestsInFlight rest + 1
  | Packet.headerAndData _ _ :: rest => requestsInFlight rest

/-- The last record with identifier `p` in a list of records. -/
def lastRecord (p : Int) : List TransmittedData → Option TransmittedData
  | [] => none
  | d :: rest =>
    match lastRecord p rest with
    | some r => some r
    | none => if d.player_num = p then some d else none

/-! ## Runs of the receive loop -/

/-- One completed receive: the arguments handed to the completion handler. -/
structure Received where
  error : Bool
  bytes_transmitted : Nat
  header : ServerDataHeader
  data : List TransmittedData
deriving DecidableEq, Repr

/-- The steady-state handler run on a list of completed receives, in order. -/
def feed : List Received → LaserTagClient → LaserTagClient
  | [], s => s
  | r :: rest, s => feed rest (OnReceiveGameData r.error r.bytes_transmitted r.header r.data s)

/-- The strictly-increasing subsequence in the words of the specification: a
snapshot is kept when its sequence number is strictly greater than the starting
baseline and than the sequence number of every snapshot before it in the list
(`before` collects the snapshots already passed). -/
def strictlyIncreasingSubsequence (baseline : Nat) (before : List Received) :
    List Received → List Received
  | [] => []
  | r :: rest =>
    if baseline < r.header.server_seq_num ∧
        ∀ q ∈ before, q.header.server_seq_num < r.header.server_seq_num then
      r :: strictlyIncreasingSubsequence baseline (before ++ [r]) rest
    else strictlyIncreasingSubsequence baseline (before ++ [r]) rest

/-! ## Example data -/

/-- A client right after construction, with the uninitialised members at zero. -/
def exampleFresh : LaserTagClient := LaserTagClient.construct 0 0 0 0

/-- A record with the given identifier and position, heading zero, laser off. -/
def exampleRecord (n : Int) (x y : ℚ) : TransmittedData :=
  { player_num := n, x_pos := x, y_pos := y, orientation := 0, laser_active := false }

/-- A 32-slot receive buffer holding players 1 and 2. -/
def exampleBuffer : List TransmittedData :=
  [exampleRecord 1 10 10, exampleRecord 2 0 0] ++ List.replicate 30 TransmittedData.zero

/-- Header with sequence 5, score (3,1) and two players. -/
def exampleHeader5 : ServerDataHeader :=
  { server_seq_num := 5, red_score := 3, blue_score := 1, client_player_num := 1,
    num_players := 2 }

/-- Header with sequence 4 and other scores. -/
def exampleHeader4 : ServerDataHeader :=
  { server_seq_num := 4, red_score := 7, blue_score := 9, client_player_num := 1,
    num_players := 1 }

/-- The fresh client after it has accepted the sequence-5 snapshot. -/
def exampleAfter5 : LaserTagClient :=
  OnReceiveGameData false 0 exampleHeader5 exampleBuffer { exampleFresh with my_player_num_ := 1 }

/-- Header with sequence 6 and two players. -/
def exampleHeader6 : ServerDataHeader :=
  { server_seq_num := 6, red_score := 3, blue_score := 2, client_player_num := 1,
    num_players := 2 }

/-- A 32-slot receive buffer holding players 2 and 3, then a stale record of
player 9 past the declared count. -/
def exampleBuffer6 : List TransmittedData :=
  [exampleRecord 2 1 1, exampleRecord 3 5 5, exampleRecord 9 0 0] ++
    List.replicate 29 TransmittedData.zero

/-- The registry entry of player 1 in `exampleAfter5`: at (10,10), laser off. -/
def examplePlayer1 : Player := Player.ofData (exampleRecord 1 10 10)

/-- A server record for player 1 at (13,14), distance 5 from (10,10), with the
laser flag set. -/
def exampleNear : TransmittedData :=
  { player_num := 1, x_pos := 13, y_pos := 14, orientation := 2, laser_active := true }

/-- A server record for player 1 at (40,50), distance 50 from (10,10), with the
laser flag set. -/
def exampleFar : TransmittedData :=
  { player_num := 1, x_pos := 40, y_pos := 50, orientation := 2, laser_active := true }

/-- Movement mutators that leave the player where it is; they stand in for
the real ones in examples that do not move. -/
def exampleMoves : PlayerMoves :=
  { MoveForward := fun p => p, MoveBackward := fun p => p,
    RotateLeft := fun p => p, RotateRight := fun p => p }

/-- The example client after a fire request at instant 100. -/
def exampleFired : LaserTagClient := (Laser 100 exampleAfter5).getD exampleAfter5

/-- Header with sequence 3 and other scores. -/
def exampleHeader3 : ServerDataHeader :=
  { server_seq_num := 3, red_score := 2, blue_score := 0, client_player_num := 1,
    num_players := 2 }

/-- A handshake with one retry: the first join request completes at instant 0,
the timeout fires at instant 1000 and resends, and the resent join request
completes at instant 1000. -/
def exampleRetryTrace : List Event :=
  [Event.SendCompleted 0 false 8, Event.TimeoutTimer 1000 false,
   Event.SendCompleted 1000 false 8]

/-- The retry of `exampleRetryTrace` followed by three datagrams: sequence 5,
then the delayed sequence 3, then sequence 4. -/
def exampleReorderTrace : List Event :=
  exampleRetryTrace ++
    [Event.ReceiveCompleted 1010 false 1300 exampleHeader5 exampleBuffer,
     Event.ReceiveCompleted 1020 false 1300 exampleHeader3 exampleBuffer,
     Event.ReceiveCompleted 1030 false 1300 exampleHeader4 exampleBuffer]

/-- A handshake without retry: the join request completes at instant 0 and the
first snapshot, sequence 5, arrives at instant 10. -/
def exampleHandshakeTrace : List Event :=
  [Event.SendCompleted 0 false 8,
   Event.ReceiveCompleted 10 false 1300 exampleHeader5 exampleBuffer]

/-- The fresh client after `exampleHandshakeTrace`. -/
def exampleAfterHandshake : LaserTagClient :=
  (run exampleMoves 0 exampleHandshakeTrace exampleFresh).getD exampleFresh

/-- Header with sequence 7 and two players. -/
def exampleHeader7 : ServerDataHeader :=
  { server_seq_num := 7, red_score := 4, blue_score := 2, client_player_num := 1,
    num_players := 2 }

/-- The handshake of `exampleHandshakeTrace`, then the sequence-7 snapshot listing
players 1 and 2 at instant 20, then the first periodic send at instant 60 and
its completion. -/
def exampleSendTrace : List Event :=
  exampleHandshakeTrace ++
    [Event.ReceiveCompleted 20 false 1300 exampleHeader7 exampleBuffer,
     Event.SendTimer 60 false, Event.SendCompleted 60 false 48]

/-- The fresh client after `exampleSendTrace`. -/
def exampleAfterSend : LaserTagClient :=
  (run exampleMoves 0 exampleSendTrace exampleFresh).getD exampleFresh

/-- The fresh client once its join request has completed at instant 0: one
initial receive outstanding, the handshake timer waiting for instant 1000. -/
def exampleAwaiting : LaserTagClient :=
  (run exampleMoves 0 [Event.SendCompleted 0 false 8] exampleFresh).getD exampleFresh

/-- The client of `exampleAfterHandshake` once the cancelled wait of the
handshake timer has been delivered with the cancellation error. -/
def exampleAfterAbort : LaserTagClient :=
  (run exampleMoves 10 [Event.TimeoutTimer 10 true] exampleAfterHandshake).getD exampleFresh

/-- Movement mutators for examples: forward and backward shift the position
by one unit along the first axis, the rotations change the heading by one. -/
def exampleStep : PlayerMoves :=
  { MoveForward := fun p => { p with position := { x := p.position.x + 1, y := p.position.y } },
    MoveBackward := fun p => { p with position := { x := p.position.x - 1, y := p.position.y } },
    RotateLeft := fun p => { p with orientation := p.orientation + 1 },
    RotateRight := fun p => { p with orientation := p.orientation - 1 } }

/-- Header with sequence 8 and three players. -/
def exampleHeader8 : ServerDataHeader :=
  { server_seq_num := 8, red_score := 4, blue_score := 3, client_player_num := 1,
    num_players := 3 }

/-- A 32-slot receive buffer with two records for player 2, at (1,1) and then at
(8,8), and one record for player 3 between them. -/
def exampleBuffer8 : List TransmittedData :=
  [exampleRecord 2 1 1, exampleRecord 3 5 5, exampleRecord 2 8 8] ++
    List.replicate 29 TransmittedData.zero

/-! ## Frame lemmas for the reconciliation loop -/

theorem InsertOrUpdatePlayer_frame (k : Int) (d : TransmittedData) (s : LaserTagClient) :
    InsertOrUpdatePlayer k d s =
      { s with players_ := (InsertOrUpdatePlayer k d s).players_ } := by
  unfold InsertOrUpdatePlayer
  cases PlayerMap.find s.players_ k with
  | none => rfl
  | some cur =>
    dsimp only
    split_ifs <;> rfl

theorem InsertOrUpdatePlayer_receives (r : List Bool) (k : Int) (d : TransmittedData)
    (s : LaserTagClient) :
    InsertOrUpdatePlayer k d { s with receives := r } =
      { InsertOrUpdatePlayer k d s with receives := r } := by
  unfold InsertOrUpdatePlayer
  cases PlayerMap.find s.players_ k with
  | none => rfl
  | some cur =>
    dsimp only
    split_ifs <;> rfl

theorem FetchData_frame (ds : List TransmittedData) (s : LaserTagClient) (a : IntSet) :
    (FetchData ds (s, a)).1 = { s with players_ := (FetchData ds (s, a)).1.players_ } := by
  induction ds generalizing s a with
  | nil => rfl
  | cons d rest ih =>
    rw [FetchData, ih, InsertOrUpdatePlayer_frame]

theorem FetchData_receives (r : List Bool) (ds : List TransmittedData) (s : LaserTagClient)
    (a : IntSet) :
    FetchData ds ({ s with receives := r }, a) =
      ({ (FetchData ds (s, a)).1 with receives := r }, (FetchData ds (s, a)).2) := by
  induction ds generalizing s a with
  | nil => rfl
  | cons d rest ih =>
    rw [FetchData, InsertOrUpdatePlayer_receives, ih, FetchData]

/-! ## The steady-state receive handler -/

theorem OnReceiveGameData_stale (error : Bool) (bytes : Nat) (h : ServerDataHeader)
    (data : List TransmittedData) (s : LaserTagClient)
    (hstale : h.server_seq_num ≤ s.last_server_seq_num_) :
    OnReceiveGameData error bytes h data s = ReceiveGameData false s := by
  unfold OnReceiveGameData
  rw [if_neg (Nat.not_lt.mpr hstale)]

theorem OnReceiveGameData_fresh (error : Bool) (bytes : Nat) (h : ServerDataHeader)
    (data : List TransmittedData) (s : LaserTagClient)
    (hfresh : s.last_server_seq_num_ < h.server_seq_num) :
    OnReceiveGameData error bytes h data s =
      { s with last_server_seq_num_ := h.server_seq_num,
               red_score_ := h.red_score,
               blue_score_ := h.blue_score,
               players_ := (OnReceiveGameData error bytes h data s).players_,
               receives := s.receives ++ [false] } := by
  unfold OnReceiveGameData
  rw [if_pos hfresh]
  dsimp only
  rw [FetchData_frame]
  rfl

theorem OnReceiveGameData_receives (r : List Bool) (error : Bool) (bytes : Nat)
    (h : ServerDataHeader) (data : List TransmittedData) (s : LaserTagClient) :
    { OnReceiveGameData error bytes h data { s with receives := r } with receives := [] } =
      { OnReceiveGameData error bytes h data s with receives := [] } := by
  unfold OnReceiveGameData
  dsimp only
  split_ifs with hlt
  · have e := FetchData_receives r (resize data h.num_players)
      { s with last_server_seq_num_ := h.server_seq_num, red_score_ := h.red_score,
               blue_score_ := h.blue_score } []
    have e' : FetchData (resize data h.num_players)
        ({ s with last_server_seq_num_ := h.server_seq_num, red_score_ := h.red_score,
                  blue_score_ := h.blue_score, receives := r }, []) = _ := e
    rw [e']
    rfl
  · rfl

theorem feed_strictlyIncreasing_aux (baseline : Nat) (l : List Received) :
    ∀ (before : List Received) (s t : LaserTagClient),
      { s with receives := [] } = { t with receives := [] } →
      (∀ x, (baseline < x ∧ ∀ q ∈ before, q.header.server_seq_num < x) ↔
            s.last_server_seq_num_ < x) →
      { feed l s with receives := [] } =
        { feed (strictlyIncreasingSubsequence baseline before l) t with receives := [] } := by
  induction l with
  | nil => intro before s t hst _; simpa [feed, strictlyIncreasingSubsequence] using hst
  | cons r rest ih =>
    intro before s t hst hinv
    have hs : s = { t with receives := s.receives } := by
      cases s; cases t; simp only [LaserTagClient.mk.injEq] at hst ⊢; tauto
    rw [feed, strictlyIncreasingSubsequence]
    by_cases hlt : s.last_server_seq_num_ < r.header.server_seq_num
    · rw [if_pos ((hinv _).mpr hlt), feed]
      apply ih
      · rw [hs, OnReceiveGameData_receives]
      · intro x
        rw [OnReceiveGameData_fresh _ _ _ _ _ hlt]
        simp only [List.mem_append, List.mem_singleton]
        constructor
        · rintro ⟨_, hq⟩
          exact hq r (Or.inr rfl)
        · intro hx
          have hsx : s.last_server_seq_num_ < x := lt_trans hlt hx
          obtain ⟨hb, hq⟩ := (hinv x).mpr hsx
          refine ⟨hb, ?_⟩
          rintro q (hq' | rfl)
          · exact hq q hq'
          · exact hx
    · rw [if_neg (fun hc => hlt ((hinv _).mp hc))]
      apply ih
      · rw [OnReceiveGameData_stale _ _ _ _ _ (Nat.not_lt.mp hlt)]
        exact hst
      · intro x
        rw [OnReceiveGameData_stale _ _ _ _ _ (Nat.not_lt.mp hlt)]
        simp only [List.mem_append, List.mem_singleton]
        show _ ↔ s.last_server_seq_num_ < x
        constructor
        · rintro ⟨hb, hq⟩
          exact (hinv x).mp ⟨hb, fun q hq' => hq q (Or.inl hq')⟩
        · intro hsx
          obtain ⟨hb, hq⟩ := (hinv x).mpr hsx
          refine ⟨hb, ?_⟩
          rintro q (hq' | rfl)
          · exact hq q hq'
          · exact lt_of_le_of_lt (Nat.not_lt.mp hlt) hsx

/-- C1: a snapshot whose sequence number does not exceed the last accepted one
leaves the score pair, the registry, the last accepted sequence number, the
local player id and the laser readiness flag as they were; the handler only
issues the next steady-state receive. -/
theorem stale_snapshot_is_discarded (error : Bool) (bytes : Nat) (h : ServerDataHeader)
    (data : List TransmittedData) (s : LaserTagClient)
    (hstale : h.server_seq_num ≤ s.last_server_seq_num_) :
    GetScore (OnReceiveGameData error bytes h data s) = GetScore s ∧
    Players (OnReceiveGameData error bytes h data s) = Players s ∧
    (OnReceiveGameData error bytes h data s).last_server_seq_num_ = s.last_server_seq_num_ ∧
    GetPlayerNum (OnReceiveGameData error bytes h data s) = GetPlayerNum s ∧
    (OnReceiveGameData error bytes h data s).laser_available_ = s.laser_available_ ∧
    OnReceiveGameData error bytes h data s = { s with receives := s.receives ++ [false] } := by
  rw [OnReceiveGameData_stale error bytes h data s hstale]
  exact ⟨rfl, rfl, rfl, rfl, rfl, rfl⟩

/-- Witness for C1: after sequence 5 with score (3,1) and players 1 and 2, a
packet with sequence 4 and other scores changes nothing. -/
theorem stale_snapshot_is_discarded_witness :
    exampleHeader4.server_seq_num ≤ exampleAfter5.last_server_seq_num_ ∧
    GetScore exampleAfter5 = (3, 1) ∧
    PlayerMap.keys (Players exampleAfter5) = [1, 2] ∧
    GetScore (OnReceiveGameData false 0 exampleHeader4 exampleBuffer exampleAfter5) =
      GetScore exampleAfter5 ∧
    Players (OnReceiveGameData false 0 exampleHeader4 exampleBuffer exampleAfter5) =
      Players exampleAfter5 :=
  ⟨by decide, by decide, by decide,
   (stale_snapshot_is_discarded false 0 exampleHeader4 exampleBuffer exampleAfter5
      (by decide)).1,
   (stale_snapshot_is_discarded false 0 exampleHeader4 exampleBuffer exampleAfter5
      (by decide)).2.1⟩

/-- C2: the steady-state handler applies a snapshot exactly when its sequence
number is strictly greater than the last accepted one. When it is, the score
pair becomes the pair of the header and the last accepted sequence number
becomes the sequence number of the header; when it is not, score, registry and
last accepted sequence number stay as they were. -/
theorem snapshot_accepted_iff_newer (error : Bool) (bytes : Nat) (h : ServerDataHeader)
    (data : List TransmittedData) (s : LaserTagClient) :
    (s.last_server_seq_num_ < h.server_seq_num →
      GetScore (OnReceiveGameData error bytes h data s) = (h.red_score, h.blue_score) ∧
      (OnReceiveGameData error bytes h data s).last_server_seq_num_ = h.server_seq_num) ∧
    (¬ s.last_server_seq_num_ < h.server_seq_num →
      GetScore (OnReceiveGameData error bytes h data s) = GetScore s ∧
      Players (OnReceiveGameData error bytes h data s) = Players s ∧
      (OnReceiveGameData error bytes h data s).last_server_seq_num_ =
        s.last_server_seq_num_) := by
  constructor
  · intro hlt
    rw [OnReceiveGameData_fresh error bytes h data s hlt]
    exact ⟨rfl, rfl⟩
  · intro hge
    rw [OnReceiveGameData_stale error bytes h data s (Nat.not_lt.mp hge)]
    exact ⟨rfl, rfl, rfl⟩

/-- Witness for C2: the fresh client (baseline 0) accepts sequence 5, and the
resulting client (baseline 5) does not accept sequence 4. -/
theorem snapshot_accepted_iff_newer_witness :
    (exampleFresh.last_server_seq_num_ < exampleHeader5.server_seq_num ∧
      GetScore (OnReceiveGameData false 0 exampleHeader5 exampleBuffer exampleFresh) = (3, 1) ∧
      (OnReceiveGameData false 0 exampleHeader5 exampleBuffer exampleFresh).last_server_seq_num_
        = 5) ∧
    (¬ exampleAfter5.last_server_seq_num_ < exampleHeader4.server_seq_num ∧
      GetScore (OnReceiveGameData false 0 exampleHeader4 exampleBuffer exampleAfter5) = (3, 1)) :=
  ⟨⟨by decide,
    (snapshot_accepted_iff_newer false 0 exampleHeader5 exampleBuffer exampleFresh).1
      (by decide)⟩,
   ⟨by decide,
    ((snapshot_accepted_iff_newer false 0 exampleHeader4 exampleBuffer exampleAfter5).2
      (by decide)).1⟩⟩

/-- C3: monotonic acceptance. Feeding any list of snapshots to the steady-state
handler yields the same registry, score pair and last accepted sequence number
as feeding only the snapshots whose sequence number is strictly greater than the
starting baseline and than that of every snapshot before them, in the same
order. -/
theorem monotonic_acceptance (l : List Received) (s : LaserTagClient) :
    Players (feed l s) =
      Players (feed (strictlyIncreasingSubsequence s.last_server_seq_num_ [] l) s) ∧
    GetScore (feed l s) =
      GetScore (feed (strictlyIncreasingSubsequence s.last_server_seq_num_ [] l) s) ∧
    (feed l s).last_server_seq_num_ =
      (feed (strictlyIncreasingSubsequence s.last_server_seq_num_ [] l) s).last_server_seq_num_ := by
  have key := feed_strictlyIncreasing_aux s.last_server_seq_num_ l [] s s rfl
    (fun x => by simp)
  have hp := congrArg LaserTagClient.players_ key
  have hr := congrArg LaserTagClient.red_score_ key
  have hb := congrArg LaserTagClient.blue_score_ key
  have hl := congrArg LaserTagClient.last_server_seq_num_ key
  refine ⟨hp, ?_, hl⟩
  show ((feed l s).red_score_, (feed l s).blue_score_) = (_, _)
  exact Prod.ext hr hb

/-! ## Key sets of the registry -/

theorem PlayerMap.mem_keys_insert (k : Int) (p : Player) (m : PlayerMap) (j : Int) :
    j ∈ PlayerMap.keys (PlayerMap.insert k p m) ↔ j = k ∨ j ∈ PlayerMap.keys m := by
  induction m with
  | nil => simp [PlayerMap.insert, PlayerMap.keys]
  | cons e rest ih =>
    unfold PlayerMap.insert
    split_ifs with h1 h2
    · simp [PlayerMap.keys]
    · simp only [PlayerMap.keys, List.map_cons, List.mem_cons]
      constructor
      · intro h; exact Or.inr h
      · rintro (h | h)
        · exact Or.inl (h.trans h2.symm)
        · exact h
    · simp only [PlayerMap.keys, List.map_cons, List.mem_cons] at ih ⊢
      rw [ih]
      tauto

theorem PlayerMap.keys_modify (f : Player → Player) (k : Int) (m : PlayerMap) :
    PlayerMap.keys (PlayerMap.modify f k m) = PlayerMap.keys m := by
  induction m with
  | nil => rfl
  | cons e rest ih =>
    unfold PlayerMap.modify
    split_ifs with h1
    · rfl
    · simp only [PlayerMap.keys, List.map_cons] at ih ⊢
      rw [ih]

theorem PlayerMap.find_eq_none_iff (m : PlayerMap) (k : Int) :
    PlayerMap.find m k = none ↔ k ∉ PlayerMap.keys m := by
  induction m with
  | nil => simp [PlayerMap.find, PlayerMap.keys]
  | cons e rest ih =>
    unfold PlayerMap.find
    simp only [PlayerMap.keys, List.map_cons, List.mem_cons, not_or] at ih ⊢
    split_ifs with h1
    · simp [h1]
    · rw [ih]
      constructor
      · intro h; exact ⟨fun hk => h1 hk.symm, h⟩
      · intro h; exact h.2

theorem PlayerMap.find_isSome_iff (m : PlayerMap) (k : Int) :
    (PlayerMap.find m k).isSome = true ↔ k ∈ PlayerMap.keys m := by
  rw [← not_iff_not, ← PlayerMap.find_eq_none_iff]
  cases PlayerMap.find m k <;> simp

theorem IntSet.mem_insert (k : Int) (a : IntSet) (j : Int) :
    j ∈ IntSet.insert k a ↔ j = k ∨ j ∈ a := by
  induction a with
  | nil => simp [IntSet.insert]
  | cons e rest ih =>
    unfold IntSet.insert
    split_ifs with h1 h2
    · simp
    · simp only [List.mem_cons]
      constructor
      · intro h; exact Or.inr h
      · rintro (h | h)
        · exact Or.inl (h.trans h2.symm)
        · exact h
    · simp only [List.mem_cons] at ih ⊢
      rw [ih]
      tauto

theorem InsertOrUpdatePlayer_keys (k : Int) (d : TransmittedData) (s : LaserTagClient)
    (j : Int) :
    j ∈ PlayerMap.keys (InsertOrUpdatePlayer k d s).players_ ↔
      j = k ∨ j ∈ PlayerMap.keys s.players_ := by
  unfold InsertOrUpdatePlayer
  cases hf : PlayerMap.find s.players_ k with
  | none => exact PlayerMap.mem_keys_insert k _ _ j
  | some cur =>
    have hk : k ∈ PlayerMap.keys s.players_ := by
      rw [← PlayerMap.find_isSome_iff, hf]; rfl
    have hiff : j ∈ PlayerMap.keys s.players_ ↔ j = k ∨ j ∈ PlayerMap.keys s.players_ :=
      ⟨Or.inr, fun h => h.elim (fun e => e ▸ hk) id⟩
    dsimp only
    split_ifs
    · simpa only [PlayerMap.keys_modify] using hiff
    · exact hiff
    · simpa only [PlayerMap.keys_modify] using hiff

theorem FetchData_keys (ds : List TransmittedData) (s : LaserTagClient) (a : IntSet) (j : Int) :
    j ∈ PlayerMap.keys (FetchData ds (s, a)).1.players_ ↔
      j ∈ PlayerMap.keys s.players_ ∨ j ∈ ds.map TransmittedData.player_num := by
  induction ds generalizing s a with
  | nil => simp [FetchData]
  | cons d rest ih =>
    rw [FetchData, ih, InsertOrUpdatePlayer_keys]
    simp only [List.map_cons, List.mem_cons]
    tauto

theorem FetchData_active (ds : List TransmittedData) (s : LaserTagClient) (a : IntSet)
    (j : Int) :
    j ∈ (FetchData ds (s, a)).2 ↔ j ∈ a ∨ j ∈ ds.map TransmittedData.player_num := by
  induction ds generalizing s a with
  | nil => simp [FetchData]
  | cons d rest ih =>
    rw [FetchData, ih, IntSet.mem_insert]
    simp only [List.map_cons, List.mem_cons]
    tauto

theorem RemoveInactive_keys (a : IntSet) (m : PlayerMap) (j : Int) :
    j ∈ PlayerMap.keys (RemoveInactive a m) ↔ j ∈ PlayerMap.keys m ∧ j ∈ a := by
  induction m with
  | nil => simp [RemoveInactive, PlayerMap.keys]
  | cons e rest ih =>
    unfold RemoveInactive
    simp only [PlayerMap.keys, List.map_cons, List.mem_cons] at ih ⊢
    split_ifs with h1
    · simp only [List.map_cons, List.mem_cons, ih]
      constructor
      · rintro (h | h)
        · exact ⟨Or.inl h, h ▸ h1⟩
        · exact ⟨Or.inr h.1, h.2⟩
      · rintro ⟨h | h, ha⟩
        · exact Or.inl h
        · exact Or.inr ⟨h, ha⟩
    · rw [ih]
      constructor
      · rintro ⟨h, ha⟩; exact ⟨Or.inr h, ha⟩
      · rintro ⟨h | h, ha⟩
        · exact absurd (h ▸ ha) h1
        · exact ⟨h, ha⟩

theorem resize_of_le (v : List TransmittedData) (n : Nat) (hn : n ≤ v.length) :
    resize v n = v.take n := by
  unfold resize
  rw [Nat.sub_eq_zero_of_le hn]
  simp

theorem OnReceiveGameData_keys (error : Bool) (bytes : Nat) (h : ServerDataHeader)
    (data : List TransmittedData) (s : LaserTagClient)
    (hfresh : s.last_server_seq_num_ < h.server_seq_num) (j : Int) :
    j ∈ PlayerMap.keys (OnReceiveGameData error bytes h data s).players_ ↔
      j ∈ (resize data h.num_players).map TransmittedData.player_num := by
  unfold OnReceiveGameData
  rw [if_pos hfresh]
  simp only [ReceiveGameData]
  rw [RemoveInactive_keys, FetchData_keys, FetchData_active]
  simp only [List.not_mem_nil, false_or]
  tauto

/-- C4: eviction correctness. After an accepted snapshot whose declared count
fits the 32-slot receive buffer, the identifiers in the registry are exactly
the identifiers of the first `num_players` records: each of them has an entry,
and no other key is left. -/
theorem eviction_correctness (error : Bool) (bytes : Nat) (h : ServerDataHeader)
    (data : List TransmittedData) (s : LaserTagClient)
    (hfresh : s.last_server_seq_num_ < h.server_seq_num)
    (hbuf : data.length = 32) (hn : h.num_players ≤ 32) (j : Int) :
    (j ∈ PlayerMap.keys (Players (OnReceiveGameData error bytes h data s)) ↔
      j ∈ (data.take h.num_players).map TransmittedData.player_num) ∧
    ((PlayerMap.find (Players (OnReceiveGameData error bytes h data s)) j).isSome = true ↔
      j ∈ (data.take h.num_players).map TransmittedData.player_num) := by
  have hk := OnReceiveGameData_keys error bytes h data s hfresh j
  rw [resize_of_le data h.num_players (hbuf ▸ hn)] at hk
  exact ⟨hk, (PlayerMap.find_isSome_iff _ j).trans hk⟩

/-- Witness for C4: the client holding players 1 and 2 accepts a sequence-6
snapshot listing players 2 and 3; player 1 is evicted, player 3 is inserted. -/
theorem eviction_correctness_witness :
    exampleAfter5.last_server_seq_num_ < exampleHeader6.server_seq_num ∧
    exampleBuffer6.length = 32 ∧ exampleHeader6.num_players ≤ 32 ∧
    PlayerMap.keys (Players exampleAfter5) = [1, 2] ∧
    PlayerMap.keys (Players (OnReceiveGameData false 0 exampleHeader6 exampleBuffer6
      exampleAfter5)) = [2, 3] ∧
    ((1 : Int) ∈ PlayerMap.keys (Players (OnReceiveGameData false 0 exampleHeader6
        exampleBuffer6 exampleAfter5)) ↔
      (1 : Int) ∈ (exampleBuffer6.take exampleHeader6.num_players).map
        TransmittedData.player_num) :=
  ⟨by decide, by decide, by decide, by decide, by decide,
   (eviction_correctness false 0 exampleHeader6 exampleBuffer6 exampleAfter5
      (by decide) (by decide) (by decide) 1).1⟩

/-! ## Local-authority blending -/

theorem NormExceeds_iff_sqrt (v : Vector2D) (r : ℚ) :
    NormExceeds v r = true ↔ (r : ℝ) < Real.sqrt ((v.x : ℝ) ^ 2 + (v.y : ℝ) ^ 2) := by
  unfold NormExceeds
  rw [decide_eq_true_iff]
  by_cases hr : r < 0
  · have hr' : (r : ℝ) < 0 := by exact_mod_cast hr
    exact ⟨fun _ => lt_of_lt_of_le hr' (Real.sqrt_nonneg _), fun _ => Or.inl hr⟩
  · have hr' : (0 : ℝ) ≤ (r : ℝ) := by exact_mod_cast not_lt.mp hr
    rw [Real.lt_sqrt hr']
    have hcast : ((r : ℝ) ^ 2 < (v.x : ℝ) ^ 2 + (v.y : ℝ) ^ 2) ↔
        r * r < v.x * v.x + v.y * v.y := by
      rw [pow_two, pow_two, pow_two]
      exact_mod_cast Iff.rfl
    rw [hcast]
    exact ⟨fun h => h.resolve_left hr, Or.inr⟩

theorem PlayerMap.find_modify_self (f : Player → Player) (k : Int) (m : PlayerMap) :
    PlayerMap.find (PlayerMap.modify f k m) k = (PlayerMap.find m k).map f := by
  induction m with
  | nil => rfl
  | cons e rest ih =>
    unfold PlayerMap.modify
    split_ifs with h1
    · simp [PlayerMap.find, h1]
    · simp only [PlayerMap.find, if_neg h1]
      exact ih

theorem PlayerMap.find_modify_other (f : Player → Player) (k j : Int) (m : PlayerMap)
    (hjk : j ≠ k) :
    PlayerMap.find (PlayerMap.modify f k m) j = PlayerMap.find m j := by
  induction m with
  | nil => rfl
  | cons e rest ih =>
    unfold PlayerMap.modify
    split_ifs with h1
    · have h2 : ¬ e.1 = j := fun h => hjk (h.symm.trans h1)
      simp only [PlayerMap.find, if_neg h2]
    · by_cases h2 : e.1 = j
      · simp only [PlayerMap.find, if_pos h2]
      · simp only [PlayerMap.find, if_neg h2]
        exact ih

theorem InsertOrUpdatePlayer_local_near (d : TransmittedData) (s : LaserTagClient)
    (me : Player) (hme : MyPlayer s = some me) (hd : d.player_num = s.my_player_num_)
    (hnear : Real.sqrt (((d.x_pos - me.position.x : ℚ) : ℝ) ^ 2 +
        ((d.y_pos - me.position.y : ℚ) : ℝ) ^ 2) ≤ 25) :
    InsertOrUpdatePlayer d.player_num d s = s := by
  have hfar : ¬ NormExceeds (Vector2D.sub { x := d.x_pos, y := d.y_pos } me.Position) 25
      = true := by
    rw [NormExceeds_iff_sqrt]
    simp only [Vector2D.sub, Player.Position]
    push_cast at hnear ⊢
    exact not_lt.mpr hnear
  unfold MyPlayer at hme
  unfold InsertOrUpdatePlayer
  rw [hd, hme]
  simp only [if_true]
  rw [if_neg hfar]

theorem InsertOrUpdatePlayer_local_far (d : TransmittedData) (s : LaserTagClient)
    (me : Player) (hme : MyPlayer s = some me) (hd : d.player_num = s.my_player_num_)
    (hfar : 25 < Real.sqrt (((d.x_pos - me.position.x : ℚ) : ℝ) ^ 2 +
        ((d.y_pos - me.position.y : ℚ) : ℝ) ^ 2)) :
    InsertOrUpdatePlayer d.player_num d s =
      { s with players_ := PlayerMap.modify (fun p => p.Update d) s.my_player_num_ s.players_ } := by
  have hex : NormExceeds (Vector2D.sub { x := d.x_pos, y := d.y_pos } me.Position) 25
      = true := by
    rw [NormExceeds_iff_sqrt]
    simp only [Vector2D.sub, Player.Position]
    push_cast at hfar ⊢
    exact hfar
  unfold MyPlayer at hme
  unfold InsertOrUpdatePlayer
  rw [hd, hme]
  simp only [if_true]
  rw [if_pos hex]

/-- C5: local-authority threshold. With the local player in the registry at
position P and a record for the local identifier at position P', the registry
position of the local player after `InsertOrUpdatePlayer` is P when the
Euclidean distance between P and P' is at most 25, and P' when it is strictly
greater than 25. -/
theorem local_authority_threshold (d : TransmittedData) (s : LaserTagClient) (me : Player)
    (hme : MyPlayer s = some me) (hd : d.player_num = s.my_player_num_) :
    (Real.sqrt (((d.x_pos - me.position.x : ℚ) : ℝ) ^ 2 +
        ((d.y_pos - me.position.y : ℚ) : ℝ) ^ 2) ≤ 25 →
      (MyPlayer (InsertOrUpdatePlayer d.player_num d s)).map Player.Position
        = some me.position) ∧
    (25 < Real.sqrt (((d.x_pos - me.position.x : ℚ) : ℝ) ^ 2 +
        ((d.y_pos - me.position.y : ℚ) : ℝ) ^ 2) →
      (MyPlayer (InsertOrUpdatePlayer d.player_num d s)).map Player.Position
        = some { x := d.x_pos, y := d.y_pos }) := by
  constructor
  · intro hnear
    rw [InsertOrUpdatePlayer_local_near d s me hme hd hnear, hme]
    rfl
  · intro hfar
    rw [InsertOrUpdatePlayer_local_far d s me hme hd hfar]
    unfold MyPlayer at hme ⊢
    show (PlayerMap.find (PlayerMap.modify (fun p => p.Update d) s.my_player_num_ s.players_)
      s.my_player_num_).map Player.Position = _
    rw [PlayerMap.find_modify_self, hme]
    rfl

theorem sqrt_sq_add_sq_le (x y : ℚ) (h : x * x + y * y ≤ 625) :
    Real.sqrt ((x : ℝ) ^ 2 + (y : ℝ) ^ 2) ≤ 25 := by
  rw [Real.sqrt_le_left (by norm_num), pow_two, pow_two]
  have h' : ((x * x + y * y : ℚ) : ℝ) ≤ ((625 : ℚ) : ℝ) := by exact_mod_cast h
  push_cast at h'
  linarith

theorem lt_sqrt_sq_add_sq (x y : ℚ) (h : 625 < x * x + y * y) :
    25 < Real.sqrt ((x : ℝ) ^ 2 + (y : ℝ) ^ 2) := by
  rw [Real.lt_sqrt (by norm_num), pow_two, pow_two]
  have h' : ((625 : ℚ) : ℝ) < ((x * x + y * y : ℚ) : ℝ) := by exact_mod_cast h
  push_cast at h'
  linarith

/-- Witness for C5: the local player 1 stands at (10,10). A record at (13,14),
distance 5, leaves it at (10,10); a record at (40,50), distance 50, moves it
to (40,50). -/
theorem local_authority_threshold_witness :
    MyPlayer exampleAfter5 = some examplePlayer1 ∧
    (MyPlayer (InsertOrUpdatePlayer 1 exampleNear exampleAfter5)).map Player.Position
      = some { x := 10, y := 10 } ∧
    (MyPlayer (InsertOrUpdatePlayer 1 exampleFar exampleAfter5)).map Player.Position
      = some { x := 40, y := 50 } :=
  ⟨by decide,
   (local_authority_threshold exampleNear exampleAfter5 examplePlayer1 (by decide)
      (by decide)).1
      (sqrt_sq_add_sq_le _ _
        (by norm_num [exampleNear, examplePlayer1, Player.ofData, exampleRecord])),
   (local_authority_threshold exampleFar exampleAfter5 examplePlayer1 (by decide)
      (by decide)).2
      (lt_sqrt_sq_add_sq _ _
        (by norm_num [exampleFar, examplePlayer1, Player.ofData, exampleRecord]))⟩

/-- C6 (as stated, refuted): the local player 1 stands at (10,10) with the laser
off; the server record for player 1 lies at distance 5 and has the laser flag
set. After `InsertOrUpdatePlayer` the local laser flag is still off, not the
value of the record. -/
theorem local_laser_flag_counterexample :
    MyPlayer exampleAfter5 = some examplePlayer1 ∧
    exampleNear.player_num = exampleAfter5.my_player_num_ ∧
    Real.sqrt (((exampleNear.x_pos - examplePlayer1.position.x : ℚ) : ℝ) ^ 2 +
        ((exampleNear.y_pos - examplePlayer1.position.y : ℚ) : ℝ) ^ 2) ≤ 25 ∧
    (MyPlayer (InsertOrUpdatePlayer exampleNear.player_num exampleNear exampleAfter5)).map
        Player.laser_active = some false ∧
    ¬ (MyPlayer (InsertOrUpdatePlayer exampleNear.player_num exampleNear exampleAfter5)).map
        Player.laser_active = some exampleNear.laser_active := by
  have hnear : Real.sqrt (((exampleNear.x_pos - examplePlayer1.position.x : ℚ) : ℝ) ^ 2 +
      ((exampleNear.y_pos - examplePlayer1.position.y : ℚ) : ℝ) ^ 2) ≤ 25 :=
    sqrt_sq_add_sq_le _ _
      (by norm_num [exampleNear, examplePlayer1, Player.ofData, exampleRecord])
  have hsame := InsertOrUpdatePlayer_local_near exampleNear exampleAfter5 examplePlayer1
    (by decide) (by decide) hnear
  rw [hsame]
  exact ⟨by decide, by decide, hnear, by decide, by decide⟩

/-- C6 (amended): when the record for the local identifier lies within distance
25 of the registry position, `InsertOrUpdatePlayer` changes nothing: the local
entry keeps its position, its orientation and its laser-active flag, and no
field of the server record is applied. -/
theorem local_entry_kept_when_near (d : TransmittedData) (s : LaserTagClient) (me : Player)
    (hme : MyPlayer s = some me) (hd : d.player_num = s.my_player_num_)
    (hnear : Real.sqrt (((d.x_pos - me.position.x : ℚ) : ℝ) ^ 2 +
        ((d.y_pos - me.position.y : ℚ) : ℝ) ^ 2) ≤ 25) :
    InsertOrUpdatePlayer d.player_num d s = s ∧
    MyPlayer (InsertOrUpdatePlayer d.player_num d s) = some me ∧
    (MyPlayer (InsertOrUpdatePlayer d.player_num d s)).map Player.laser_active
      = some me.laser_active := by
  rw [InsertOrUpdatePlayer_local_near d s me hme hd hnear, hme]
  exact ⟨rfl, rfl, rfl⟩

/-- Witness for the amended C6 on the example: the entry of player 1 is the
same before and after the near record. -/
theorem local_entry_kept_when_near_witness :
    MyPlayer exampleAfter5 = some examplePlayer1 ∧
    InsertOrUpdatePlayer exampleNear.player_num exampleNear exampleAfter5 = exampleAfter5 :=
  ⟨by decide,
   (local_entry_kept_when_near exampleNear exampleAfter5 examplePlayer1 (by decide) (by decide)
      (sqrt_sq_add_sq_le _ _
        (by norm_num [exampleNear, examplePlayer1, Player.ofData, exampleRecord]))).1⟩

/-! ## The handshake -/

theorem OnReceiveInitialGameData_eq (now : Nat) (error : Bool) (bytes : Nat)
    (h : ServerDataHeader) (data : List TransmittedData) (s : LaserTagClient) :
    OnReceiveInitialGameData now error bytes h data s =
      { s with timeout_timer_ := s.timeout_timer_.cancel,
               last_server_seq_num_ := h.server_seq_num,
               my_player_num_ := h.client_player_num,
               receives := s.receives ++ [false],
               send_timer_ := (s.send_timer_.expires_from_now now 50).async_wait } := by
  unfold OnReceiveInitialGameData
  dsimp only
  rw [OnReceiveGameData_stale _ _ _ _ _ (le_refl _)]
  rfl

/-- C7 (the code at the failing input): a freshly constructed client receives
its first snapshot, sequence 5 with score (3,1), assigning identifier 1 and
listing players 1 and 2. After `OnReceiveInitialGameData` the registry is still
empty, the score is still the one held before, and the local player has no
entry, although the identifier and the baseline were recorded. -/
theorem initial_snapshot_not_applied :
    exampleHeader5.client_player_num = 1 ∧
    (1 : Int) ∈ (exampleBuffer.take exampleHeader5.num_players).map
      TransmittedData.player_num ∧
    Players (OnReceiveInitialGameData 0 false 0 exampleHeader5 exampleBuffer exampleFresh)
      = [] ∧
    GetScore (OnReceiveInitialGameData 0 false 0 exampleHeader5 exampleBuffer exampleFresh)
      = (0, 0) ∧
    GetPlayerNum (OnReceiveInitialGameData 0 false 0 exampleHeader5 exampleBuffer exampleFresh)
      = 1 ∧
    MyPlayer (OnReceiveInitialGameData 0 false 0 exampleHeader5 exampleBuffer exampleFresh)
      = none := by
  decide

/-- C8: after the initial handler the local identifier is the one of the header
and the baseline is the sequence number of the header, so the next snapshot
handled by `OnReceiveGameData` is applied when its sequence number is strictly
greater than that baseline and is discarded otherwise. -/
theorem initial_snapshot_seeds_baseline (now : Nat) (error : Bool) (bytes : Nat)
    (h : ServerDataHeader) (data : List TransmittedData) (s : LaserTagClient) :
    GetPlayerNum (OnReceiveInitialGameData now error bytes h data s) = h.client_player_num ∧
    (OnReceiveInitialGameData now error bytes h data s).last_server_seq_num_
      = h.server_seq_num ∧
    ∀ (error' : Bool) (bytes' : Nat) (h' : ServerDataHeader) (data' : List TransmittedData),
      (h.server_seq_num < h'.server_seq_num →
        GetScore (OnReceiveGameData error' bytes' h' data'
            (OnReceiveInitialGameData now error bytes h data s))
          = (h'.red_score, h'.blue_score) ∧
        (OnReceiveGameData error' bytes' h' data'
            (OnReceiveInitialGameData now error bytes h data s)).last_server_seq_num_
          = h'.server_seq_num) ∧
      (¬ h.server_seq_num < h'.server_seq_num →
        GetScore (OnReceiveGameData error' bytes' h' data'
            (OnReceiveInitialGameData now error bytes h data s))
          = GetScore (OnReceiveInitialGameData now error bytes h data s) ∧
        Players (OnReceiveGameData error' bytes' h' data'
            (OnReceiveInitialGameData now error bytes h data s))
          = Players (OnReceiveInitialGameData now error bytes h data s) ∧
        (OnReceiveGameData error' bytes' h' data'
            (OnReceiveInitialGameData now error bytes h data s)).last_server_seq_num_
          = h.server_seq_num) := by
  have hlast : (OnReceiveInitialGameData now error bytes h data s).last_server_seq_num_
      = h.server_seq_num := by
    rw [OnReceiveInitialGameData_eq]
  refine ⟨by rw [OnReceiveInitialGameData_eq]; rfl, hlast, ?_⟩
  intro error' bytes' h' data'
  constructor
  · intro hlt
    rw [OnReceiveGameData_fresh error' bytes' h' data' _ (hlast.symm ▸ hlt)]
    exact ⟨rfl, rfl⟩
  · intro hge
    rw [OnReceiveGameData_stale error' bytes' h' data' _
      (hlast.symm ▸ Nat.not_lt.mp hge)]
    exact ⟨rfl, rfl, hlast⟩

/-- Witness for C8: the fresh client handles a first snapshot with sequence 5
and identifier 1; a following snapshot with sequence 6 is applied and one with
sequence 4 is discarded. -/
theorem initial_snapshot_seeds_baseline_witness :
    GetPlayerNum (OnReceiveInitialGameData 0 false 0 exampleHeader5 exampleBuffer exampleFresh)
      = 1 ∧
    (OnReceiveInitialGameData 0 false 0 exampleHeader5 exampleBuffer
      exampleFresh).last_server_seq_num_ = 5 ∧
    (OnReceiveGameData false 0 exampleHeader6 exampleBuffer6
      (OnReceiveInitialGameData 0 false 0 exampleHeader5 exampleBuffer
        exampleFresh)).last_server_seq_num_ = 6 ∧
    (OnReceiveGameData false 0 exampleHeader4 exampleBuffer
      (OnReceiveInitialGameData 0 false 0 exampleHeader5 exampleBuffer
        exampleFresh)).last_server_seq_num_ = 5 :=
  ⟨(initial_snapshot_seeds_baseline 0 false 0 exampleHeader5 exampleBuffer exampleFresh).1,
   (initial_snapshot_seeds_baseline 0 false 0 exampleHeader5 exampleBuffer exampleFresh).2.1,
   (((initial_snapshot_seeds_baseline 0 false 0 exampleHeader5 exampleBuffer
      exampleFresh).2.2 false 0 exampleHeader6 exampleBuffer6).1 (by decide)).2,
   (((initial_snapshot_seeds_baseline 0 false 0 exampleHeader5 exampleBuffer
      exampleFresh).2.2 false 0 exampleHeader4 exampleBuffer).2 (by decide)).2.2⟩

/-! ## The laser cooldown -/

theorem MyPlayerApply_eq (f : Player → Player) (s : LaserTagClient) (me : Player)
    (hme : MyPlayer s = some me) :
    MyPlayerApply f s =
      some { s with players_ := PlayerMap.modify f s.my_player_num_ s.players_ } := by
  unfold MyPlayerApply
  rw [hme]

theorem Laser_ready (now : Nat) (s : LaserTagClient) (me : Player)
    (hready : s.laser_available_ = true) (hme : MyPlayer s = some me) :
    Laser now s =
      some { s with
        players_ := PlayerMap.modify (fun p => p.SetLaser true) s.my_player_num_ s.players_,
        laser_available_ := false,
        laser_timer_ := (s.laser_timer_.expires_from_now now 250).async_wait,
        laser_available_timer_ :=
          (s.laser_available_timer_.expires_from_now now 1000).async_wait } := by
  unfold Laser
  rw [if_neg (by rw [hready]; decide), MyPlayerApply_eq _ s me hme]

/-- C9: while the readiness flag is false a fire request does nothing: `Laser`
and `UpdateState` with the fire symbol return the state they were given, so the
local laser-active flag, the readiness flag, both timers, the registry and the
score are unchanged. -/
theorem fire_while_recharging_is_noop (mv : PlayerMoves) (now : Nat) (s : LaserTagClient)
    (hbusy : s.laser_available_ = false) :
    Laser now s = some s ∧ UpdateState mv now Input.Space s = some s := by
  have hl : Laser now s = some s := by
    unfold Laser
    rw [if_pos hbusy]
  exact ⟨hl, hl⟩

/-- Witness for C9: the example client 300 ms after firing at instant 100:
a second fire request returns the same state, with the timers still set to
expire at 350 and 1100. -/
theorem fire_while_recharging_is_noop_witness :
    exampleFired.laser_available_ = false ∧
    exampleFired.laser_timer_.expires_at = some 350 ∧
    exampleFired.laser_available_timer_.expires_at = some 1100 ∧
    UpdateState exampleMoves 400 Input.Space exampleFired = some exampleFired :=
  ⟨by decide, by decide, by decide,
   (fire_while_recharging_is_noop exampleMoves 400 exampleFired (by decide)).2⟩

/-- C10: with the readiness flag true and the local player in the registry, a
fire request at instant `now` succeeds; afterwards the local laser-active flag
is true (the rest of the local entry is as before), the readiness flag is false,
the laser timer expires at `now + 250` and the availability timer at
`now + 1000`, each with one handler waiting, and every other registry entry, the
registry keys and the score are unchanged. -/
theorem fire_when_ready (mv : PlayerMoves) (now : Nat) (s : LaserTagClient) (me : Player)
    (hready : s.laser_available_ = true) (hme : MyPlayer s = some me) :
    ∃ s', UpdateState mv now Input.Space s = some s' ∧ Laser now s = some s' ∧
      MyPlayer s' = some (me.SetLaser true) ∧
      (MyPlayer s').map Player.laser_active = some true ∧
      s'.laser_available_ = false ∧
      s'.laser_timer_.expires_at = some (now + 250) ∧
      s'.laser_available_timer_.expires_at = some (now + 1000) ∧
      s'.laser_timer_.waiting = 1 ∧
      s'.laser_available_timer_.waiting = 1 ∧
      (∀ j, j ≠ s.my_player_num_ →
        PlayerMap.find (Players s') j = PlayerMap.find (Players s) j) ∧
      PlayerMap.keys (Players s') = PlayerMap.keys (Players s) ∧
      GetScore s' = GetScore s := by
  have hl := Laser_ready now s me hready hme
  refine ⟨_, hl, hl, ?_, ?_, rfl, rfl, rfl, rfl, rfl, ?_, ?_, rfl⟩
  · unfold MyPlayer at hme ⊢
    show PlayerMap.find (PlayerMap.modify _ s.my_player_num_ s.players_) s.my_player_num_ = _
    rw [PlayerMap.find_modify_self, hme]
    rfl
  · unfold MyPlayer at hme ⊢
    show (PlayerMap.find (PlayerMap.modify _ s.my_player_num_ s.players_)
      s.my_player_num_).map Player.laser_active = _
    rw [PlayerMap.find_modify_self, hme]
    rfl
  · intro j hj
    exact PlayerMap.find_modify_other _ _ _ _ hj
  · exact PlayerMap.keys_modify _ _ _

/-- Witness for C10: the example client, ready and holding players 1 and 2,
fires at instant 100: player 1 has its laser on, the timers expire at 350 and
1100, and player 2 is as before. -/
theorem fire_when_ready_witness :
    exampleAfter5.laser_available_ = true ∧
    MyPlayer exampleAfter5 = some examplePlayer1 ∧
    Laser 100 exampleAfter5 = some exampleFired ∧
    (MyPlayer exampleFired).map Player.laser_active = some true ∧
    PlayerMap.find (Players exampleFired) 2 = PlayerMap.find (Players exampleAfter5) 2 ∧
    ∃ s', UpdateState exampleMoves 100 Input.Space exampleAfter5 = some s' ∧
      s'.laser_timer_.expires_at = some (100 + 250) ∧
      s'.laser_available_timer_.expires_at = some (100 + 1000) :=
  ⟨by decide, by decide, by decide, by decide, by decide,
   (fire_when_ready exampleMoves 100 exampleAfter5 examplePlayer1 (by decide) (by decide)).elim
     (fun s' hs' => ⟨s', hs'.1, hs'.2.2.2.2.2.1, hs'.2.2.2.2.2.2.1⟩)⟩

theorem OnLaserTimer_eq (error : Bool) (s : LaserTagClient) (me : Player)
    (hme : MyPlayer s = some me) :
    OnLaserTimer error s =
      some { s with players_ :=
        PlayerMap.modify (fun p => p.SetLaser false) s.my_player_num_ s.players_ } :=
  MyPlayerApply_eq _ s me hme

theorem MyPlayer_modify (f : Player → Player) (s : LaserTagClient) :
    MyPlayer { s with players_ := PlayerMap.modify f s.my_player_num_ s.players_ } =
      (MyPlayer s).map f :=
  PlayerMap.find_modify_self f s.my_player_num_ s.players_

/-- C11: the two laser timer handlers. With the local player in the registry,
the 250 ms handler only replaces the local entry by itself with the laser flag
cleared (readiness flag, other entries and all other fields unchanged), and the
1000 ms handler only sets the readiness flag (registry and all other fields
unchanged). Hence a fire request from the ready state followed by the 250 ms
and the 1000 ms handler ends with the readiness flag true and the local laser
flag false. -/
theorem laser_timer_handlers (now : Nat) (e1 e2 : Bool) (s : LaserTagClient) (me : Player)
    (hme : MyPlayer s = some me) :
    (∃ s', OnLaserTimer e1 s = some s' ∧
      s' = { s with players_ := Players s' } ∧
      MyPlayer s' = some { me with laser_active := false } ∧
      s'.laser_available_ = s.laser_available_ ∧
      (∀ j, j ≠ s.my_player_num_ →
        PlayerMap.find (Players s') j = PlayerMap.find (Players s) j) ∧
      PlayerMap.keys (Players s') = PlayerMap.keys (Players s)) ∧
    OnLaserAvailableTimer e2 s = { s with laser_available_ := true } ∧
    (OnLaserAvailableTimer e2 s).laser_available_ = true ∧
    Players (OnLaserAvailableTimer e2 s) = Players s ∧
    (s.laser_available_ = true →
      ∃ s1 s2, Laser now s = some s1 ∧ OnLaserTimer e1 s1 = some s2 ∧
        (OnLaserAvailableTimer e2 s2).laser_available_ = true ∧
        (MyPlayer (OnLaserAvailableTimer e2 s2)).map Player.laser_active = some false) := by
  refine ⟨⟨_, OnLaserTimer_eq e1 s me hme, rfl, ?_, rfl, ?_, ?_⟩, rfl, rfl, rfl, ?_⟩
  · rw [MyPlayer_modify, hme]
    rfl
  · intro j hj
    exact PlayerMap.find_modify_other _ _ _ _ hj
  · exact PlayerMap.keys_modify _ _ _
  · intro hready
    have hfire := Laser_ready now s me hready hme
    have hme1 : MyPlayer { s with
        players_ := PlayerMap.modify (fun p => p.SetLaser true) s.my_player_num_ s.players_,
        laser_available_ := false,
        laser_timer_ := (s.laser_timer_.expires_from_now now 250).async_wait,
        laser_available_timer_ :=
          (s.laser_available_timer_.expires_from_now now 1000).async_wait }
        = some (me.SetLaser true) := by
      have h := MyPlayer_modify (fun p => p.SetLaser true) s
      rw [hme] at h
      exact h
    refine ⟨_, _, hfire, OnLaserTimer_eq e1 _ _ hme1, rfl, ?_⟩
    have h2 := MyPlayer_modify (fun p => p.SetLaser false) { s with
        players_ := PlayerMap.modify (fun p => p.SetLaser true) s.my_player_num_ s.players_,
        laser_available_ := false,
        laser_timer_ := (s.laser_timer_.expires_from_now now 250).async_wait,
        laser_available_timer_ :=
          (s.laser_available_timer_.expires_from_now now 1000).async_wait }
    rw [hme1] at h2
    show (MyPlayer _).map Player.laser_active = some false
    unfold OnLaserAvailableTimer
    unfold MyPlayer at h2 ⊢
    dsimp only at h2 ⊢
    rw [h2]
    rfl

/-- Witness for C11: the example client fires at instant 100; after the 250 ms
handler the laser of player 1 is off while the readiness flag is still false,
and after the 1000 ms handler the readiness flag is true again. -/
theorem laser_timer_handlers_witness :
    MyPlayer exampleFired = some { examplePlayer1 with laser_active := true } ∧
    exampleFired.laser_available_ = false ∧
    (∃ s', OnLaserTimer false exampleFired = some s' ∧
      MyPlayer s' = some examplePlayer1 ∧ s'.laser_available_ = false) ∧
    (OnLaserAvailableTimer false exampleFired).laser_available_ = true ∧
    exampleAfter5.laser_available_ = true ∧
    (∃ s1 s2, Laser 100 exampleAfter5 = some s1 ∧ OnLaserTimer false s1 = some s2 ∧
      (OnLaserAvailableTimer false s2).laser_available_ = true ∧
      (MyPlayer (OnLaserAvailableTimer false s2)).map Player.laser_active = some false) :=
  ⟨by decide, by decide,
   (laser_timer_handlers 100 false false exampleFired
      { examplePlayer1 with laser_active := true } (by decide)).1.elim
     (fun s' hs' => ⟨s', hs'.1, hs'.2.2.1, hs'.2.2.2.1.trans (by decide)⟩),
   (laser_timer_handlers 100 false false exampleFired
      { examplePlayer1 with laser_active := true } (by decide)).2.2.1,
   by decide,
   (laser_timer_handlers 100 false false exampleAfter5 examplePlayer1 (by decide)).2.2.2.2
     (by decide)⟩

/-! ## Runs of the event loop -/

/-- C12 (the code at the failing input): a freshly constructed client whose
join request is resent once after a handshake timeout. When the resent join
request has completed, two initial receive operations are outstanding on the
socket. -/
theorem two_receives_outstanding_after_retry :
    (run exampleMoves 0 [Event.SendCompleted 0 false 8] exampleFresh).map
      LaserTagClient.receives = some [true] ∧
    (run exampleMoves 0 exampleRetryTrace exampleFresh).map
      LaserTagClient.receives = some [true, true] ∧
    (run exampleMoves 0 exampleRetryTrace exampleFresh).map
      (fun s => s.receives.length) = some 2 := by
  decide

/-- C13 (the code at the failing input): after a handshake with one retry the
client receives sequence 5, then sequence 3, both through the initial handler,
then sequence 4 through the steady-state handler. The last accepted sequence
number goes 5, 3, 4, and the score of sequence 4 is applied although sequence 5
was received before it. -/
theorem baseline_decreases_after_retry :
    (run exampleMoves 0 (exampleReorderTrace.take 4) exampleFresh).map
      LaserTagClient.last_server_seq_num_ = some 5 ∧
    (run exampleMoves 0 (exampleReorderTrace.take 5) exampleFresh).map
      LaserTagClient.last_server_seq_num_ = some 3 ∧
    (run exampleMoves 0 (exampleReorderTrace.take 5) exampleFresh).map
      LaserTagClient.receives = some [false, false] ∧
    (run exampleMoves 0 exampleReorderTrace exampleFresh).map
      LaserTagClient.last_server_seq_num_ = some 4 ∧
    (run exampleMoves 0 exampleReorderTrace exampleFresh).map GetScore
      = some (exampleHeader4.red_score, exampleHeader4.blue_score) ∧
    exampleHeader4.server_seq_num < exampleHeader5.server_seq_num := by
  decide

/-- C19 (the code at the failing input): a freshly constructed client completes
the handshake with a first snapshot that assigns identifier 1 and lists players
1 and 2. In the state reached the registry is empty and the lookup of the local
player finds nothing, while the send timer has a handler waiting for instant
60; when that handler runs, `SendPlayerData` dereferences the missing entry, and
so do `UpdateState` with a movement or fire symbol and the 250 ms handler. -/
theorem local_lookup_fails_after_handshake :
    run exampleMoves 0 exampleHandshakeTrace exampleFresh = some exampleAfterHandshake ∧
    GetPlayerNum exampleAfterHandshake = 1 ∧
    Players exampleAfterHandshake = [] ∧
    MyPlayer exampleAfterHandshake = none ∧
    exampleAfterHandshake.send_timer_ = { expires_at := some 60, waiting := 1, aborted := 0 } ∧
    step exampleMoves (Event.SendTimer 60 false) exampleAfterHandshake = none ∧
    SendPlayerData false exampleAfterHandshake = none ∧
    UpdateState exampleMoves 20 Input.Up exampleAfterHandshake = none ∧
    UpdateState exampleMoves 20 Input.Space exampleAfterHandshake = none ∧
    OnLaserTimer false exampleAfterHandshake = none := by
  decide

/-! ## Frames of the handlers -/

theorem OnReceiveGameData_frame (error : Bool) (bytes : Nat) (h : ServerDataHeader)
    (data : List TransmittedData) (s : LaserTagClient) :
    OnReceiveGameData error bytes h data s =
      { s with players_ := (OnReceiveGameData error bytes h data s).players_,
               last_server_seq_num_ :=
                 (OnReceiveGameData error bytes h data s).last_server_seq_num_,
               red_score_ := (OnReceiveGameData error bytes h data s).red_score_,
               blue_score_ := (OnReceiveGameData error bytes h data s).blue_score_,
               receives := s.receives ++ [false] } := by
  by_cases hlt : s.last_server_seq_num_ < h.server_seq_num
  · have e := OnReceiveGameData_fresh error bytes h data s hlt
    rw [e]
  · rw [OnReceiveGameData_stale error bytes h data s (Nat.not_lt.mp hlt)]
    rfl

theorem MyPlayerApply_frame (f : Player → Player) (s s' : LaserTagClient)
    (h : MyPlayerApply f s = some s') :
    s' = { s with players_ := PlayerMap.modify f s.my_player_num_ s.players_ } := by
  unfold MyPlayerApply at h
  cases hm : MyPlayer s with
  | none => rw [hm] at h; cases h
  | some me => rw [hm] at h; exact (Option.some.inj h).symm

theorem Laser_frame (now : Nat) (s s' : LaserTagClient) (h : Laser now s = some s') :
    s' = { s with players_ := s'.players_, laser_available_ := s'.laser_available_,
                  laser_timer_ := s'.laser_timer_,
                  laser_available_timer_ := s'.laser_available_timer_ } := by
  unfold Laser at h
  split_ifs at h with hb
  · cases h; rfl
  · cases hm : MyPlayerApply (fun p => p.SetLaser true) s with
    | none => rw [hm] at h; cases h
    | some s1 =>
      rw [hm] at h
      have h1 := MyPlayerApply_frame _ s s1 hm
      subst h1
      cases h
      rfl

theorem UpdateState_frame (mv : PlayerMoves) (now : Nat) (input : Input)
    (s s' : LaserTagClient) (h : UpdateState mv now input s = some s') :
    s' = { s with players_ := s'.players_, laser_available_ := s'.laser_available_,
                  laser_timer_ := s'.laser_timer_,
                  laser_available_timer_ := s'.laser_available_timer_ } := by
  cases input with
  | Up => have h1 := MyPlayerApply_frame _ s s' h; subst h1; rfl
  | Down => have h1 := MyPlayerApply_frame _ s s' h; subst h1; rfl
  | Left => have h1 := MyPlayerApply_frame _ s s' h; subst h1; rfl
  | Right => have h1 := MyPlayerApply_frame _ s s' h; subst h1; rfl
  | Space => exact Laser_frame now s s' h
  | Other c => cases h; rfl

theorem SendPlayerData_eq (error : Bool) (s : LaserTagClient) (me : Player)
    (hme : MyPlayer s = some me) :
    SendPlayerData error s =
      some { s with seq_num_ := (s.seq_num_ + 1) % 2 ^ 32,
                    sends := s.sends ++
                      [Packet.headerAndData { request := false, seq_num := s.seq_num_ }
                        me.Data] } := by
  unfold SendPlayerData
  have hme' : MyPlayer { s with seq_num_ := (s.seq_num_ + 1) % 2 ^ 32 } = some me := hme
  dsimp only
  rw [hme']

theorem SendPlayerData_frame (error : Bool) (s s' : LaserTagClient)
    (h : SendPlayerData error s = some s') :
    ∃ me, MyPlayer s = some me ∧
      s' = { s with seq_num_ := (s.seq_num_ + 1) % 2 ^ 32,
                    sends := s.sends ++
                      [Packet.headerAndData { request := false, seq_num := s.seq_num_ }
                        me.Data] } := by
  cases hm : MyPlayer s with
  | none =>
    unfold SendPlayerData at h
    have hm' : MyPlayer { s with seq_num_ := (s.seq_num_ + 1) % 2 ^ 32 } = none := hm
    dsimp only at h
    rw [hm'] at h
    cases h
  | some me =>
    rw [SendPlayerData_eq error s me hm] at h
    exact ⟨me, rfl, (Option.some.inj h).symm⟩

/-! ## The outbound counter -/

theorem step_seq_num (mv : PlayerMoves) (e : Event) (s s' : LaserTagClient)
    (hlt : s.seq_num_ < 2 ^ 32) (h : step mv e s = some s') :
    s'.seq_num_ = (s.seq_num_ + countSendPlayerData [e]) % 2 ^ 32 := by
  have hsame : s.seq_num_ = (s.seq_num_ + 0) % 2 ^ 32 := by
    rw [Nat.add_zero, Nat.mod_eq_of_lt hlt]
  cases e with
  | SendCompleted now error bytes =>
    simp only [step] at h
    split at h
    · cases h
    · cases h; exact hsame
    · cases h; exact hsame
  | ReceiveCompleted now error bytes header data =>
    simp only [step] at h
    split_ifs at h with hlen
    split at h
    · cases h
    · cases h
      rw [OnReceiveInitialGameData_eq]
      exact hsame
    · cases h
      rw [OnReceiveGameData_frame]
      exact hsame
  | TimeoutTimer now error =>
    simp only [step] at h
    split at h
    · cases h
    · cases h
      cases error <;> exact hsame
  | SendTimer now error =>
    simp only [step] at h
    split at h
    · cases h
    · obtain ⟨me, _, hs'⟩ := SendPlayerData_frame error _ s' h
      rw [hs']
      rfl
  | LaserTimer now error =>
    simp only [step] at h
    split at h
    · cases h
    · have h1 := MyPlayerApply_frame _ _ s' h
      rw [h1]
      exact hsame
  | LaserAvailableTimer now error =>
    simp only [step] at h
    split at h
    · cases h
    · cases h
      exact hsame
  | InputSymbol now input =>
    have h1 := UpdateState_frame mv now input s s' h
    rw [h1]
    exact hsame

theorem countSendPlayerData_cons (e : Event) (rest : List Event) :
    countSendPlayerData (e :: rest) = countSendPlayerData [e] + countSendPlayerData rest := by
  cases e <;> simp [countSendPlayerData, Nat.add_comm]

theorem run_seq_num (mv : PlayerMoves) (tr : List Event) :
    ∀ (clock : Nat) (s s' : LaserTagClient), s.seq_num_ < 2 ^ 32 →
      run mv clock tr s = some s' →
      s'.seq_num_ = (s.seq_num_ + countSendPlayerData tr) % 2 ^ 32 := by
  induction tr with
  | nil =>
    intro clock s s' hlt h
    cases h
    exact (Nat.mod_eq_of_lt hlt).symm
  | cons e rest ih =>
    intro clock s s' hlt h
    unfold run at h
    split_ifs at h with hc
    cases hst : step mv e s with
    | none => rw [hst] at h; cases h
    | some s1 =>
      rw [hst] at h
      have hM : (0 : Nat) < 2 ^ 32 := by norm_num
      have h1 := step_seq_num mv e s s1 hlt hst
      have h2 := ih e.now s1 s' (h1 ▸ Nat.mod_lt _ hM) h
      rw [h2, h1, countSendPlayerData_cons e rest, Nat.mod_add_mod, Nat.add_assoc]

/-- C14: in a state reached from construction by a run of the event loop that
invoked `SendPlayerData` k times, with the local player in the registry, the
outbound counter is k mod 2^32 and the next invocation hands exactly one
datagram to the socket: a header with the request flag cleared and sequence
number k mod 2^32, followed by the record of the local player as it stands in
the registry. The counter becomes (k + 1) mod 2^32; registry, score, last
accepted sequence number and every other field are unchanged. -/
theorem kth_send_player_data (mv : PlayerMoves) (red blue my : Int) (last : Nat)
    (tr : List Event) (s : LaserTagClient) (me : Player) (error : Bool)
    (hrun : run mv 0 tr (LaserTagClient.construct red blue my last) = some s)
    (hme : MyPlayer s = some me) :
    s.seq_num_ = countSendPlayerData tr % 2 ^ 32 ∧
    SendPlayerData error s =
      some { s with
        seq_num_ := (countSendPlayerData tr + 1) % 2 ^ 32,
        sends := s.sends ++
          [Packet.headerAndData
            { request := false, seq_num := countSendPlayerData tr % 2 ^ 32 } me.Data] } ∧
    me.Data = { player_num := me.player_num, x_pos := me.position.x, y_pos := me.position.y,
                orientation := me.orientation, laser_active := me.laser_active } ∧
    (∀ s', SendPlayerData error s = some s' →
      Players s' = Players s ∧ GetScore s' = GetScore s ∧
      s'.last_server_seq_num_ = s.last_server_seq_num_) := by
  have hseq : s.seq_num_ = countSendPlayerData tr % 2 ^ 32 := by
    have h := run_seq_num mv tr 0 (LaserTagClient.construct red blue my last) s
      (by show (0 : Nat) < 2 ^ 32; norm_num) hrun
    rw [h]
    show (0 + countSendPlayerData tr) % 2 ^ 32 = _
    rw [Nat.zero_add]
  refine ⟨hseq, ?_, rfl, ?_⟩
  · rw [SendPlayerData_eq error s me hme, hseq, Nat.mod_add_mod]
  · intro s' hs'
    rw [SendPlayerData_eq error s me hme] at hs'
    cases hs'
    exact ⟨rfl, rfl, rfl⟩

/-- Witness for C14: after the handshake, one applied snapshot and one periodic
send (k = 1), the next `SendPlayerData` sends a header with sequence number 1
and the record of player 1. -/
theorem kth_send_player_data_witness :
    run exampleMoves 0 exampleSendTrace (LaserTagClient.construct 0 0 0 0)
      = some exampleAfterSend ∧
    MyPlayer exampleAfterSend = some examplePlayer1 ∧
    countSendPlayerData exampleSendTrace = 1 ∧
    exampleAfterSend.seq_num_ = 1 ∧
    SendPlayerData false exampleAfterSend =
      some { exampleAfterSend with
        seq_num_ := (countSendPlayerData exampleSendTrace + 1) % 2 ^ 32,
        sends := exampleAfterSend.sends ++
          [Packet.headerAndData
            { request := false, seq_num := countSendPlayerData exampleSendTrace % 2 ^ 32 }
            examplePlayer1.Data] } :=
  ⟨by decide, by decide, by decide, by decide,
   (kth_send_player_data exampleMoves 0 0 0 0 exampleSendTrace exampleAfterSend examplePlayer1
      false (by decide) (by decide)).2.1⟩

/-! ## The handshake retry chain -/

theorem requestsInFlight_append (l : List Packet) (p : Packet) :
    requestsInFlight (l ++ [p]) = requestsInFlight l + requestsInFlight [p] := by
  induction l with
  | nil => simp [requestsInFlight]
  | cons q rest ih =>
    cases q with
    | header h =>
      show requestsInFlight (rest ++ [p]) + 1 = requestsInFlight rest + 1 + _
      rw [ih]; omega
    | headerAndData h d =>
      show requestsInFlight (rest ++ [p]) = requestsInFlight rest + _
      rw [ih]

theorem requestsInFlight_eq_zero (l : List Packet) (h : requestsInFlight l = 0) :
    ∀ p ∈ l, p.isRequest = false := by
  induction l with
  | nil => intro p hp; cases hp
  | cons q rest ih =>
    cases q with
    | header hd => exact absurd h (Nat.succ_ne_zero _)
    | headerAndData hd d =>
      intro p hp
      rcases List.mem_cons.mp hp with rfl | hp
      · rfl
      · exact ih h p hp

theorem DeadlineTimer.deliver_waiting (t t' : DeadlineTimer) (now : Nat) (error : Bool)
    (h : t.deliver now error = some t') :
    (error = true ∧ t'.waiting = t.waiting) ∨
    (error = false ∧ 0 < t.waiting ∧ t'.waiting + 1 = t.waiting) := by
  unfold DeadlineTimer.deliver at h
  cases error with
  | true =>
    simp only [if_true] at h
    split_ifs at h
    cases h
    exact Or.inl ⟨rfl, rfl⟩
  | false =>
    simp only [Bool.false_eq_true, if_false] at h
    split at h
    · cases h
    · split_ifs at h with hc
      cases h
      refine Or.inr ⟨rfl, hc.1, ?_⟩
      show t.waiting - 1 + 1 = t.waiting
      omega

theorem step_handshake (mv : PlayerMoves) (e : Event) (s s' : LaserTagClient)
    (h : step mv e s = some s') :
    (requestsInFlight s'.sends = requestsInFlight s.sends ∧
      s'.timeout_timer_.waiting = s.timeout_timer_.waiting) ∨
    (requestsInFlight s'.sends + 1 = requestsInFlight s.sends ∧
      s'.timeout_timer_.waiting = 1) ∨
    (requestsInFlight s'.sends = requestsInFlight s.sends ∧
      s'.timeout_timer_.waiting = 0) ∨
    (0 < s.timeout_timer_.waiting ∧
      requestsInFlight s'.sends = requestsInFlight s.sends + 1 ∧
      s'.timeout_timer_.waiting + 1 = s.timeout_timer_.waiting) := by
  cases e with
  | SendCompleted now error bytes =>
    simp only [step] at h
    split at h
    · cases h
    · rename_i hd rest heq
      cases h
      refine Or.inr (Or.inl ⟨?_, rfl⟩)
      rw [heq]
      rfl
    · rename_i hd d rest heq
      cases h
      refine Or.inl ⟨?_, rfl⟩
      rw [heq]
      rfl
  | ReceiveCompleted now error bytes header data =>
    simp only [step] at h
    split_ifs at h with hlen
    split at h
    · cases h
    · cases h
      rw [OnReceiveInitialGameData_eq]
      exact Or.inr (Or.inr (Or.inl ⟨rfl, rfl⟩))
    · cases h
      rw [OnReceiveGameData_frame]
      exact Or.inl ⟨rfl, rfl⟩
  | TimeoutTimer now error =>
    simp only [step] at h
    split at h
    · cases h
    · rename_i t ht
      cases h
      rcases DeadlineTimer.deliver_waiting _ _ _ _ ht with ⟨he, hw⟩ | ⟨he, hpos, hw⟩
      · subst he
        exact Or.inl ⟨rfl, hw⟩
      · subst he
        refine Or.inr (Or.inr (Or.inr ⟨hpos, ?_, hw⟩))
        show requestsInFlight (s.sends ++ [_]) = _
        rw [requestsInFlight_append]
        rfl
  | SendTimer now error =>
    simp only [step] at h
    split at h
    · cases h
    · obtain ⟨me, _, hs'⟩ := SendPlayerData_frame error _ s' h
      rw [hs']
      refine Or.inl ⟨?_, rfl⟩
      show requestsInFlight (s.sends ++ [_]) = _
      rw [requestsInFlight_append]
      rfl
  | LaserTimer now error =>
    simp only [step] at h
    split at h
    · cases h
    · have h1 := MyPlayerApply_frame _ _ s' h
      rw [h1]
      exact Or.inl ⟨rfl, rfl⟩
  | LaserAvailableTimer now error =>
    simp only [step] at h
    split at h
    · cases h
    · cases h
      exact Or.inl ⟨rfl, rfl⟩
  | InputSymbol now input =>
    have h1 := UpdateState_frame mv now input s s' h
    rw [h1]
    exact Or.inl ⟨rfl, rfl⟩

theorem run_retry_chain (mv : PlayerMoves) (tr : List Event) :
    ∀ (clock : Nat) (s s' : LaserTagClient),
      requestsInFlight s.sends + s.timeout_timer_.waiting ≤ 1 →
      run mv clock tr s = some s' →
      requestsInFlight s'.sends + s'.timeout_timer_.waiting ≤ 1 := by
  induction tr with
  | nil => intro clock s s' hinv h; cases h; exact hinv
  | cons e rest ih =>
    intro clock s s' hinv h
    unfold run at h
    split_ifs at h with hc
    cases hst : step mv e s with
    | none => rw [hst] at h; cases h
    | some s1 =>
      rw [hst] at h
      refine ih e.now s1 s' ?_ h
      rcases step_handshake mv e s s1 hst with h1 | h1 | h1 | h1 <;> omega

theorem run_handshake_over (mv : PlayerMoves) (tr : List Event) :
    ∀ (clock : Nat) (s s' : LaserTagClient),
      requestsInFlight s.sends = 0 → s.timeout_timer_.waiting = 0 →
      run mv clock tr s = some s' →
      requestsInFlight s'.sends = 0 ∧ s'.timeout_timer_.waiting = 0 := by
  induction tr with
  | nil => intro clock s s' hr hw h; cases h; exact ⟨hr, hw⟩
  | cons e rest ih =>
    intro clock s s' hr hw h
    unfold run at h
    split_ifs at h with hc
    cases hst : step mv e s with
    | none => rw [hst] at h; cases h
    | some s1 =>
      rw [hst] at h
      have h1 := step_handshake mv e s s1 hst
      refine ih e.now s1 s' ?_ ?_ h
      · rcases h1 with h1 | h1 | h1 | h1 <;> omega
      · rcases h1 with h1 | h1 | h1 | h1 <;> omega

/-- C15: handshake retry. Invoked without error, `OnEnterGameTimeout` hands
exactly one datagram to the socket, a header alone with the request flag set
and sequence number 0, and changes nothing else; invoked with the cancellation
error it returns the state unchanged. Hence, in any run from construction, once
a received snapshot has cancelled the wait pending on the handshake timer, no
handler is left waiting on that timer and no join request is handed to the
socket in any later state. -/
theorem handshake_retry (s : LaserTagClient) :
    OnEnterGameTimeout false s =
      { s with sends := s.sends ++ [Packet.header { request := true, seq_num := 0 }] } ∧
    OnEnterGameTimeout true s = s ∧
    ∀ (mv : PlayerMoves) (red blue my : Int) (last : Nat) (tr1 tr2 : List Event)
      (s1 s2 s3 : LaserTagClient) (now : Nat) (error : Bool) (bytes : Nat)
      (header : ServerDataHeader) (data : List TransmittedData),
      run mv 0 tr1 (LaserTagClient.construct red blue my last) = some s1 →
      0 < s1.timeout_timer_.waiting →
      s1.receives.head? = some true →
      step mv (Event.ReceiveCompleted now error bytes header data) s1 = some s2 →
      run mv now tr2 s2 = some s3 →
      s2.timeout_timer_.waiting = 0 ∧
      s2.timeout_timer_.aborted = s1.timeout_timer_.aborted + s1.timeout_timer_.waiting ∧
      s3.timeout_timer_.waiting = 0 ∧
      ∀ p ∈ s3.sends, p.isRequest = false := by
  refine ⟨rfl, rfl, ?_⟩
  intro mv red blue my last tr1 tr2 s1 s2 s3 now error bytes header data hrun1 hwait hhead
    hstep hrun2
  have hchain := run_retry_chain mv tr1 0 (LaserTagClient.construct red blue my last) s1
    (Nat.le_refl 1) hrun1
  have hr1 : requestsInFlight s1.sends = 0 := by omega
  simp only [step] at hstep
  split_ifs at hstep with hlen
  cases hrec : s1.receives with
  | nil => rw [hrec] at hhead; cases hhead
  | cons b rest =>
    rw [hrec] at hhead hstep
    cases b with
    | false => cases hhead
    | true =>
      dsimp only at hstep
      rw [OnReceiveInitialGameData_eq] at hstep
      cases hstep
      have hover := (fun a b => run_handshake_over mv tr2 now _ s3 a b hrun2) hr1 rfl
      exact ⟨rfl, rfl, hover.2, requestsInFlight_eq_zero _ hover.1⟩

/-- Witness for C15: the join request of the fresh client has completed and the
handshake timer waits for instant 1000 when the first snapshot arrives at
instant 10; the cancelled wait is then delivered with the cancellation error,
and no join request is in the send queue. -/
theorem handshake_retry_witness :
    run exampleMoves 0 [Event.SendCompleted 0 false 8] (LaserTagClient.construct 0 0 0 0)
      = some exampleAwaiting ∧
    exampleAwaiting.timeout_timer_ = { expires_at := some 1000, waiting := 1, aborted := 0 } ∧
    exampleAfterHandshake.timeout_timer_
      = { expires_at := some 1000, waiting := 0, aborted := 1 } ∧
    exampleAfterAbort.timeout_timer_ = { expires_at := some 1000, waiting := 0, aborted := 0 } ∧
    exampleAfterAbort.sends = [] ∧
    ∀ p ∈ exampleAfterAbort.sends, p.isRequest = false :=
  ⟨by decide, by decide, by decide, by decide, by decide,
   ((handshake_retry exampleFresh).2.2 exampleMoves 0 0 0 0 [Event.SendCompleted 0 false 8]
      [Event.TimeoutTimer 10 true] exampleAwaiting exampleAfterHandshake exampleAfterAbort
      10 false 1300 exampleHeader5 exampleBuffer
      (by decide) (by decide) (by decide) (by decide) (by decide)).2.2.2⟩

/-! ## Re-arming and input dispatch -/

/-- C16: the loops are always re-armed. Whatever the state, the header, the
buffer and the error code, `OnReceiveGameData` adds exactly one receive bound to
the steady-state handler to the outstanding receives, so a completed
steady-state receive is replaced by exactly one new one; and whatever the error
code, `OnSendPlayerData` sets the send timer to expire 50 ms after the current
instant with one handler waiting, and changes nothing else. -/
theorem loops_always_rearmed (mv : PlayerMoves) (now : Nat) (error : Bool) (bytes : Nat)
    (h : ServerDataHeader) (data : List TransmittedData) (s : LaserTagClient) :
    (OnReceiveGameData error bytes h data s).receives = s.receives ++ [false] ∧
    (∀ rest, data.length = 32 → s.receives = false :: rest →
      (step mv (Event.ReceiveCompleted now error bytes h data) s).map LaserTagClient.receives
        = some (rest ++ [false])) ∧
    (OnSendPlayerData now error bytes s).send_timer_.expires_at = some (now + 50) ∧
    (OnSendPlayerData now error bytes s).send_timer_.waiting = 1 ∧
    OnSendPlayerData now error bytes s =
      { s with send_timer_ := (OnSendPlayerData now error bytes s).send_timer_ } := by
  refine ⟨?_, ?_, rfl, rfl, rfl⟩
  · rw [OnReceiveGameData_frame]
  · intro rest hlen hrec
    simp only [step, hlen, if_true, hrec, Option.map_some']
    rw [OnReceiveGameData_frame]

/-- Witness for C16: the example client, with one steady-state receive
outstanding, completes it with a failed receive; one steady-state receive is
outstanding afterwards. -/
theorem loops_always_rearmed_witness :
    exampleBuffer.length = 32 ∧ exampleAfterHandshake.receives = [false] ∧
    (step exampleMoves (Event.ReceiveCompleted 20 true 0 exampleHeader4 exampleBuffer)
      exampleAfterHandshake).map LaserTagClient.receives = some ([] ++ [false]) :=
  ⟨by decide, by decide,
   (loops_always_rearmed exampleMoves 20 true 0 exampleHeader4 exampleBuffer
      exampleAfterHandshake).2.1 [] (by decide) (by decide)⟩

/-- C17: input dispatch. A symbol other than the four movements and fire leaves
the whole state unchanged. Each movement symbol, when it returns a state,
changes at most the registry entry stored under the local identifier: every
other field, every other entry and the key set are unchanged; and with the local
player in the registry it does return, the local entry replaced by the
corresponding mutator applied to it. -/
theorem input_dispatch_frame (mv : PlayerMoves) (now : Nat) (s : LaserTagClient) :
    (∀ c, UpdateState mv now (Input.Other c) s = some s) ∧
    (∀ input s', (input = Input.Up ∨ input = Input.Down ∨ input = Input.Left ∨
        input = Input.Right) →
      UpdateState mv now input s = some s' →
      s' = { s with players_ := Players s' } ∧
      (∀ j, j ≠ s.my_player_num_ →
        PlayerMap.find (Players s') j = PlayerMap.find (Players s) j) ∧
      PlayerMap.keys (Players s') = PlayerMap.keys (Players s)) ∧
    (∀ me, MyPlayer s = some me →
      UpdateState mv now Input.Up s =
        some { s with players_ :=
          PlayerMap.modify mv.MoveForward s.my_player_num_ s.players_ } ∧
      UpdateState mv now Input.Down s =
        some { s with players_ :=
          PlayerMap.modify mv.MoveBackward s.my_player_num_ s.players_ } ∧
      UpdateState mv now Input.Left s =
        some { s with players_ :=
          PlayerMap.modify mv.RotateLeft s.my_player_num_ s.players_ } ∧
      UpdateState mv now Input.Right s =
        some { s with players_ :=
          PlayerMap.modify mv.RotateRight s.my_player_num_ s.players_ }) := by
  refine ⟨fun c => rfl, ?_, ?_⟩
  · intro input s' hin hs'
    have hmod : ∃ f, s' = { s with players_ := PlayerMap.modify f s.my_player_num_ s.players_ } := by
      rcases hin with rfl | rfl | rfl | rfl
      · exact ⟨_, MyPlayerApply_frame _ s s' hs'⟩
      · exact ⟨_, MyPlayerApply_frame _ s s' hs'⟩
      · exact ⟨_, MyPlayerApply_frame _ s s' hs'⟩
      · exact ⟨_, MyPlayerApply_frame _ s s' hs'⟩
    obtain ⟨f, rfl⟩ := hmod
    refine ⟨rfl, ?_, PlayerMap.keys_modify _ _ _⟩
    intro j hj
    exact PlayerMap.find_modify_other _ _ _ _ hj
  · intro me hme
    exact ⟨MyPlayerApply_eq _ s me hme, MyPlayerApply_eq _ s me hme,
      MyPlayerApply_eq _ s me hme, MyPlayerApply_eq _ s me hme⟩

/-- Witness for C17: on the example client an unnamed symbol returns the same
state, and a move-forward that shifts the player by (1,0) changes the entry of
player 1 and leaves player 2 as it was. -/
theorem input_dispatch_frame_witness :
    UpdateState exampleStep 0 (Input.Other 7) exampleAfter5 = some exampleAfter5 ∧
    MyPlayer exampleAfter5 = some examplePlayer1 ∧
    UpdateState exampleStep 0 Input.Up exampleAfter5 =
      some { exampleAfter5 with
        players_ := PlayerMap.modify exampleStep.MoveForward exampleAfter5.my_player_num_
          exampleAfter5.players_ } ∧
    PlayerMap.find (PlayerMap.modify exampleStep.MoveForward exampleAfter5.my_player_num_
      exampleAfter5.players_) 2 = PlayerMap.find (Players exampleAfter5) 2 :=
  ⟨(input_dispatch_frame exampleStep 0 exampleAfter5).1 7, by decide,
   ((input_dispatch_frame exampleStep 0 exampleAfter5).2.2 examplePlayer1 (by decide)).1,
   ((input_dispatch_frame exampleStep 0 exampleAfter5).2.1 Input.Up _ (Or.inl rfl)
      (((input_dispatch_frame exampleStep 0 exampleAfter5).2.2 examplePlayer1
        (by decide)).1)).2.1 2 (by decide)⟩

/-! ## Entries of remote players -/

theorem PlayerMap.find_insert_self (k : Int) (p : Player) (m : PlayerMap)
    (h : PlayerMap.find m k = none) :
    PlayerMap.find (PlayerMap.insert k p m) k = some p := by
  induction m with
  | nil => simp [PlayerMap.insert, PlayerMap.find]
  | cons e rest ih =>
    unfold PlayerMap.find at h
    split_ifs at h with h1
    unfold PlayerMap.insert
    split_ifs with h2
    · simp [PlayerMap.find]
    · simp only [PlayerMap.find, if_neg h1]
      exact ih h

theorem PlayerMap.find_insert_other (k j : Int) (p : Player) (m : PlayerMap) (hjk : j ≠ k) :
    PlayerMap.find (PlayerMap.insert k p m) j = PlayerMap.find m j := by
  have hkj : ¬ k = j := fun h => hjk h.symm
  induction m with
  | nil => simp [PlayerMap.insert, PlayerMap.find, hkj]
  | cons e rest ih =>
    unfold PlayerMap.insert
    split_ifs with h1 h2
    · simp only [PlayerMap.find, if_neg hkj]
    · rfl
    · by_cases h3 : e.1 = j
      · simp only [PlayerMap.find, if_pos h3]
      · simp only [PlayerMap.find, if_neg h3]
        exact ih

theorem InsertOrUpdatePlayer_find_other (k j : Int) (d : TransmittedData) (s : LaserTagClient)
    (hjk : j ≠ k) :
    PlayerMap.find (InsertOrUpdatePlayer k d s).players_ j = PlayerMap.find s.players_ j := by
  unfold InsertOrUpdatePlayer
  cases hf : PlayerMap.find s.players_ k with
  | none => exact PlayerMap.find_insert_other k j _ _ hjk
  | some cur =>
    dsimp only
    split_ifs
    · exact PlayerMap.find_modify_other _ _ _ _ hjk
    · rfl
    · exact PlayerMap.find_modify_other _ _ _ _ hjk

theorem InsertOrUpdatePlayer_find_remote (k : Int) (d : TransmittedData) (s : LaserTagClient)
    (hk : k ≠ s.my_player_num_) :
    ∃ q, PlayerMap.find (InsertOrUpdatePlayer k d s).players_ k = some q ∧
      q.position = { x := d.x_pos, y := d.y_pos } ∧ q.orientation = d.orientation ∧
      q.laser_active = d.laser_active := by
  unfold InsertOrUpdatePlayer
  cases hf : PlayerMap.find s.players_ k with
  | none => exact ⟨_, PlayerMap.find_insert_self k _ _ hf, rfl, rfl, rfl⟩
  | some cur =>
    dsimp only
    rw [if_neg hk]
    refine ⟨cur.Update d, ?_, rfl, rfl, rfl⟩
    show PlayerMap.find (PlayerMap.modify _ k s.players_) k = _
    rw [PlayerMap.find_modify_self, hf]
    rfl

theorem FetchData_find_remote (p : Int) (ds : List TransmittedData) :
    ∀ (s : LaserTagClient) (a : IntSet), p ≠ s.my_player_num_ →
      (∀ r, lastRecord p ds = some r →
        ∃ q, PlayerMap.find (FetchData ds (s, a)).1.players_ p = some q ∧
          q.position = { x := r.x_pos, y := r.y_pos } ∧ q.orientation = r.orientation ∧
          q.laser_active = r.laser_active) ∧
      (lastRecord p ds = none →
        PlayerMap.find (FetchData ds (s, a)).1.players_ p = PlayerMap.find s.players_ p) := by
  induction ds with
  | nil =>
    intro s a _
    exact ⟨fun r hr => (by cases hr), fun _ => rfl⟩
  | cons d rest ih =>
    intro s a hp
    have hmy : (InsertOrUpdatePlayer d.player_num d s).my_player_num_ = s.my_player_num_ := by
      rw [InsertOrUpdatePlayer_frame]
    have ih' := ih (InsertOrUpdatePlayer d.player_num d s) (IntSet.insert d.player_num a)
      (hmy.symm ▸ hp)
    rw [FetchData]
    unfold lastRecord
    cases hl : lastRecord p rest with
    | some r0 =>
      refine ⟨?_, fun h => by cases h⟩
      intro r hr
      cases hr
      exact ih'.1 r0 hl
    | none =>
      have hrest := ih'.2 hl
      by_cases hd : d.player_num = p
      · simp only [if_pos hd]
        refine ⟨?_, fun h => by cases h⟩
        intro r hr
        cases hr
        rw [hrest]
        have hk : d.player_num ≠ s.my_player_num_ := hd ▸ hp
        obtain ⟨q, hq, hrest'⟩ := InsertOrUpdatePlayer_find_remote d.player_num d s hk
        exact ⟨q, hd ▸ hq, hrest'⟩
      · simp only [if_neg hd]
        refine ⟨fun r hr => (by cases hr), fun _ => ?_⟩
        rw [hrest]
        exact InsertOrUpdatePlayer_find_other _ _ _ _ (fun h => hd h.symm)

theorem RemoveInactive_find (a : IntSet) (m : PlayerMap) (p : Int) (hp : p ∈ a) :
    PlayerMap.find (RemoveInactive a m) p = PlayerMap.find m p := by
  induction m with
  | nil => rfl
  | cons e rest ih =>
    unfold RemoveInactive
    split_ifs with h1
    · simp only [PlayerMap.find, ih]
    · have h2 : ¬ e.1 = p := fun h => h1 (h ▸ hp)
      simp only [PlayerMap.find, if_neg h2]
      exact ih

theorem lastRecord_of_mem (p : Int) (ds : List TransmittedData)
    (h : p ∈ ds.map TransmittedData.player_num) :
    ∃ r, lastRecord p ds = some r := by
  induction ds with
  | nil => cases h
  | cons d rest ih =>
    unfold lastRecord
    cases hl : lastRecord p rest with
    | some r0 => exact ⟨r0, rfl⟩
    | none =>
      rw [List.map_cons, List.mem_cons] at h
      rcases h with h | h
      · exact ⟨d, by simp only [if_pos h.symm]⟩
      · obtain ⟨r, hr⟩ := ih h
        rw [hl] at hr
        cases hr

theorem lastRecord_player_num (p : Int) (ds : List TransmittedData) (r : TransmittedData)
    (h : lastRecord p ds = some r) : r.player_num = p ∧ r ∈ ds := by
  induction ds with
  | nil => cases h
  | cons d rest ih =>
    unfold lastRecord at h
    cases hl : lastRecord p rest with
    | some r0 =>
      rw [hl] at h
      cases h
      exact ⟨(ih hl).1, List.mem_cons_of_mem _ (ih hl).2⟩
    | none =>
      rw [hl] at h
      dsimp only at h
      split_ifs at h with hd
      cases h
      exact ⟨hd, List.mem_cons_self _ _⟩

/-- C18: after an accepted snapshot, every identifier other than the local one
that occurs in the records the handler iterates (the buffer resized to
`num_players`, that is its first `num_players` slots when the count fits the
buffer) has a registry entry carrying exactly the position, the orientation and
the laser-active flag of the last record with that identifier, whether the
entry was inserted or was already there. -/
theorem remote_entry_is_last_record (error : Bool) (bytes : Nat) (h : ServerDataHeader)
    (data : List TransmittedData) (s : LaserTagClient) (p : Int)
    (hfresh : s.last_server_seq_num_ < h.server_seq_num)
    (hp : p ≠ s.my_player_num_)
    (hocc : p ∈ (resize data h.num_players).map TransmittedData.player_num) :
    (h.num_players ≤ data.length → resize data h.num_players = data.take h.num_players) ∧
    ∃ r q, lastRecord p (resize data h.num_players) = some r ∧ r.player_num = p ∧
      PlayerMap.find (Players (OnReceiveGameData error bytes h data s)) p = some q ∧
      q.position = { x := r.x_pos, y := r.y_pos } ∧ q.orientation = r.orientation ∧
      q.laser_active = r.laser_active := by
  refine ⟨resize_of_le data h.num_players, ?_⟩
  obtain ⟨r, hr⟩ := lastRecord_of_mem p _ hocc
  have hfetch := (FetchData_find_remote p (resize data h.num_players)
    { s with last_server_seq_num_ := h.server_seq_num, red_score_ := h.red_score,
             blue_score_ := h.blue_score } [] hp).1 r hr
  obtain ⟨q, hq, hfields⟩ := hfetch
  refine ⟨r, q, hr, (lastRecord_player_num p _ r hr).1, ?_, hfields⟩
  unfold OnReceiveGameData Players
  rw [if_pos hfresh]
  simp only [ReceiveGameData]
  rw [RemoveInactive_find _ _ p ((FetchData_active _ _ _ p).mpr (Or.inr hocc))]
  exact hq

/-- Witness for C18: the example client holds players 1 (local) and 2 and
accepts a sequence-8 snapshot whose three records are player 2 at (1,1), player
3 at (5,5) and player 2 at (8,8). Afterwards player 2, already present, stands
at (8,8), and player 3, newly inserted, at (5,5). -/
theorem remote_entry_is_last_record_witness :
    lastRecord 2 (resize exampleBuffer8 exampleHeader8.num_players)
      = some (exampleRecord 2 8 8) ∧
    PlayerMap.find (Players (OnReceiveGameData false 0 exampleHeader8 exampleBuffer8
      exampleAfter5)) 2 = some (Player.ofData (exampleRecord 2 8 8)) ∧
    PlayerMap.find (Players (OnReceiveGameData false 0 exampleHeader8 exampleBuffer8
      exampleAfter5)) 3 = some (Player.ofData (exampleRecord 3 5 5)) ∧
    ∃ r q, lastRecord 2 (resize exampleBuffer8 exampleHeader8.num_players) = some r ∧
      r.player_num = 2 ∧
      PlayerMap.find (Players (OnReceiveGameData false 0 exampleHeader8 exampleBuffer8
        exampleAfter5)) 2 = some q ∧
      q.position = { x := r.x_pos, y := r.y_pos } ∧ q.orientation = r.orientation ∧
      q.laser_active = r.laser_active :=
  ⟨by decide, by decide, by decide,
   (remote_entry_is_last_record false 0 exampleHeader8 exampleBuffer8 exampleAfter5 2
      (by decide) (by decide) (by decide)).2⟩

end LaserTag
